import Mathlib

/-!
# Transactional session layer of `pkg/services/sqlstore`

A state-passing embedding of `session.go` and `transactions.go`.

* A `*DBSession` is an index into the heap `World.sessions`; two pointers are
  identical exactly when the indices are equal.
* The collaborators (the xorm session's `Begin`/`Rollback`/`Commit`, and
  `bus.Publish`) are fields of `SqlStore`: each gives the error the call
  returns (`none` is Go's `nil`).
* Every function returns, next to its Go result, the world it leaves and the
  list of operations it issued, in order.  What a callback does itself is
  wrapped in `Op.inner`, so the operations of one executor call are told apart
  from the operations of the unit of work it runs.
* `inTransactionWithRetryCtx` calls itself; the embedding takes a bound
  `fuel` on the depth of that recursion and answers `Outcome.diverged` when
  the bound is reached.
-/

namespace Sqlstore

/-- The `ErrNo` of go-sqlite3 for "the database file is locked". -/
def ErrBusy : Int := 5

/-- The `ErrNo` of go-sqlite3 for "a table in the database is locked". -/
def ErrLocked : Int := 6

/-- Go `error` values that are not `nil`.  `sqlite3Error` is a value of the
struct type `sqlite3.Error`; `other` is an error of any other dynamic type;
`wrapf cause rollErr` is the value built by
`errutil.Wrapf(cause, "Rolling back transaction due to error failed: %s", rollErr)`. -/
inductive GoError where
  | sqlite3Error (Code : Int) (ExtendedCode : Int)
  | other (id : Nat)
  | wrapf (cause : GoError) (rollErr : GoError)
  deriving DecidableEq, Repr

/-- A Go `error`: `none` is `nil`. -/
abbrev Err := Option GoError

/-- An event payload handed to `publishAfterCommit`. -/
abbrev Event := Nat

/-- The struct `DBSession`: the pending events and the dialect (the embedded
xorm session is the collaborator behind `SqlStore.Begin` and the like). -/
structure DBSession where
  events : List Event
  dialect : Nat
  deriving DecidableEq, Repr

/-- The heap of sessions and the state `user` owned by the callbacks
(closure variables, the rows they wrote, ...). -/
structure World (σ : Type) where
  sessions : List DBSession
  user : σ

/-- One operation issued on a collaborator. `sess` is the pointer of the
session it is issued on. -/
inductive Op where
  | NewSession (sess : Nat)
  | Begin (sess : Nat) (res : Err)
  | callback (sess : Nat)
  | inner (op : Op)
  | Rollback (sess : Nat) (res : Err)
  | Sleep
  | Commit (sess : Nat) (res : Err)
  | Publish (sess : Nat) (e : Event) (res : Err)
  | Close (sess : Nat)
  deriving DecidableEq, Repr

/-- How a call ends: it returns an `error`, or it never returns. -/
inductive Outcome where
  | returned (err : Err)
  | diverged
  deriving DecidableEq, Repr

/-- The result of running a function that returns an `error`. -/
structure Run (σ : Type) where
  out : Outcome
  world : World σ
  trace : List Op

/-- The type `dbTransactionFunc`, `func(sess *DBSession) error`. -/
abbrev dbTransactionFunc (σ : Type) := Nat → World σ → Run σ

/-- A `context.Context`, as far as the key `ContextSessionKey{}` goes. -/
inductive Context where
  | Background
  | WithValue (parent : Context) (sess : Nat)
  deriving DecidableEq, Repr

/-- The `ctx.Value(ContextSessionKey{})` lookup followed by the type assertion
`value.(*DBSession)`. -/
def Context.Value : Context → Option Nat
  | .Background => none
  | .WithValue _ sess => some sess

/-- The store `ss` with its collaborators. -/
structure SqlStore (σ : Type) where
  Dialect : Nat
  Begin : Nat → World σ → Err
  Rollback : Nat → World σ → Err
  Commit : Nat → World σ → Err
  Publish : Event → World σ → Err

variable {σ : Type}

/-- The events of the session behind the pointer `sess`. -/
def World.events (w : World σ) (sess : Nat) : List Event :=
  match w.sessions.get? sess with
  | some s => s.events
  | none => []

/-- `sess.publishAfterCommit(msg)`: `sess.events = append(sess.events, msg)`. -/
def publishAfterCommit (sess : Nat) (msg : Event) (w : World σ) : World σ :=
  { w with sessions := w.sessions.modify (fun s => { s with events := s.events ++ [msg] }) sess }

/-- `ss.startSession(ctx, beginTran)`. -/
def startSession (ss : SqlStore σ) (ctx : Context) (beginTran : Bool) (w : World σ) :
    Except GoError Nat × World σ × List Op :=
  match ctx.Value with
  | some sess => (.ok sess, w, [])
  | none =>
    let newSess := w.sessions.length
    let w1 : World σ := { w with sessions := w.sessions ++ [{ events := [], dialect := ss.Dialect }] }
    if beginTran then
      match ss.Begin newSess w1 with
      | some err => (.error err, w1, [Op.NewSession newSess, Op.Begin newSess (some err)])
      | none => (.ok newSess, w1, [Op.NewSession newSess, Op.Begin newSess none])
    else
      (.ok newSess, w1, [Op.NewSession newSess])

/-- The type assertion `err.(sqlite3.Error)`: the `Code` of the asserted value
(the zero value when the assertion fails) and `ok`. -/
def assertSqlite3Error : Err → Int × Bool
  | some (.sqlite3Error code _) => (code, true)
  | _ => (0, false)

/-- The condition of the `if` at lines 35-36 of `transactions.go`,
`ok && retry < 5 && sqlError.Code == sqlite3.ErrLocked || sqlError.Code == sqlite3.ErrBusy`,
with Go's precedence (`&&` binds tighter than `||`). -/
def retryCondition (err : Err) (retry : Int) : Bool :=
  let (code, ok) := assertSqlite3Error err
  (ok && decide (retry < 5) && decide (code = ErrLocked)) || decide (code = ErrBusy)

/-- Modelled from the spec: `errutil.Wrapf` of `pkg/util/errutil`, which is not
among the sources.  It gives "a single combined error" that wraps the original
cause `err` and describes the rollback failure `rollErr`; the wrapper of a `nil`
cause is taken to be `nil`. -/
def Wrapf (err : Err) (rollErr : GoError) : Err :=
  err.map fun cause => GoError.wrapf cause rollErr

/-- The sum of two `int` values (64 bits, wrapping). -/
def addInt (a b : Int) : Int :=
  (a + b + 9223372036854775808) % 18446744073709551616 - 9223372036854775808

/-- The loop `for _, e := range sess.events { bus.Publish(e) }`: the
operations it issues. -/
def publishAll (ss : SqlStore σ) (sess : Nat) (w : World σ) : List Event → List Op
  | [] => []
  | e :: es => Op.Publish sess e (ss.Publish e w) :: publishAll ss sess w es

/-- `ss.inTransactionWithRetryCtx(ctx, callback, retry)`, with at most `fuel`
nested calls of itself. -/
def inTransactionWithRetryCtx (ss : SqlStore σ) :
    Nat → Context → dbTransactionFunc σ → Int → World σ → Run σ
  | 0, _, _, _, w => { out := .diverged, world := w, trace := [] }
  | fuel + 1, ctx, callback, retry, w =>
    match startSession ss ctx true w with
    | (.error err, w1, t1) => { out := .returned (some err), world := w1, trace := t1 }
    | (.ok sess, w1, t1) =>
      let c := callback sess w1
      let t2 := t1 ++ [Op.callback sess] ++ c.trace.map Op.inner
      match c.out with
      | .diverged => { out := .diverged, world := c.world, trace := t2 }
      | .returned err =>
        if retryCondition err retry then
          match ss.Rollback sess c.world with
          | some rollErr =>
            { out := .returned (Wrapf err rollErr), world := c.world,
              trace := t2 ++ [Op.Rollback sess (some rollErr), Op.Close sess] }
          | none =>
            let r := inTransactionWithRetryCtx ss fuel .Background callback (addInt retry 1) c.world
            match r.out with
            | .diverged =>
              { out := .diverged, world := r.world,
                trace := t2 ++ [Op.Rollback sess none, Op.Sleep] ++ r.trace }
            | .returned e =>
              { out := .returned e, world := r.world,
                trace := t2 ++ [Op.Rollback sess none, Op.Sleep] ++ r.trace ++ [Op.Close sess] }
        else
          match err with
          | some e =>
            match ss.Rollback sess c.world with
            | some rollErr =>
              { out := .returned (Wrapf (some e) rollErr), world := c.world,
                trace := t2 ++ [Op.Rollback sess (some rollErr), Op.Close sess] }
            | none =>
              { out := .returned (some e), world := c.world,
                trace := t2 ++ [Op.Rollback sess none, Op.Close sess] }
          | none =>
            match ss.Commit sess c.world with
            | some e =>
              { out := .returned (some e), world := c.world,
                trace := t2 ++ [Op.Commit sess (some e), Op.Close sess] }
            | none =>
              { out := .returned none, world := c.world,
                trace := t2 ++ [Op.Commit sess none] ++
                  publishAll ss sess c.world (c.world.events sess) ++ [Op.Close sess] }

/-- `ss.WithTransactionalDbSession(ctx, callback)`. -/
def WithTransactionalDbSession (ss : SqlStore σ) (fuel : Nat) (ctx : Context)
    (callback : dbTransactionFunc σ) (w : World σ) : Run σ :=
  inTransactionWithRetryCtx ss fuel ctx callback 0 w

/-- `ss.InTransaction(ctx, fn)`: the callback binds the session to the context
with `context.WithValue(ctx, ContextSessionKey{}, sess)` and runs `fn` on it. -/
def InTransaction (ss : SqlStore σ) (fuel : Nat) (ctx : Context)
    (fn : Context → World σ → Run σ) (w : World σ) : Run σ :=
  inTransactionWithRetryCtx ss fuel ctx (fun sess => fn (Context.WithValue ctx sess)) 0 w

/-- `ss.inTransaction(callback)`. -/
def inTransaction (ss : SqlStore σ) (fuel : Nat) (callback : dbTransactionFunc σ)
    (w : World σ) : Run σ :=
  inTransactionWithRetryCtx ss fuel Context.Background callback 0 w

/-- `ss.inTransactionCtx(ctx, callback)`. -/
def inTransactionCtx (ss : SqlStore σ) (fuel : Nat) (ctx : Context)
    (callback : dbTransactionFunc σ) (w : World σ) : Run σ :=
  inTransactionWithRetryCtx ss fuel ctx callback 0 w

/-- `ss.WithDbSession(ctx, callback)`. -/
def WithDbSession (ss : SqlStore σ) (ctx : Context) (callback : dbTransactionFunc σ)
    (w : World σ) : Run σ :=
  match startSession ss ctx false w with
  | (.error err, w1, t1) => { out := .returned (some err), world := w1, trace := t1 }
  | (.ok sess, w1, t1) =>
    let c := callback sess w1
    let t2 := t1 ++ [Op.callback sess] ++ c.trace.map Op.inner
    match c.out with
    | .diverged => { out := .diverged, world := c.world, trace := t2 }
    | .returned err => { out := .returned err, world := c.world, trace := t2 ++ [Op.Close sess] }

/-! ## Reading a trace -/

/-- The number of times the executor invoked its callback. -/
def callbackCount : List Op → Nat
  | [] => 0
  | Op.callback _ :: t => callbackCount t + 1
  | _ :: t => callbackCount t

/-- The events the executor passed to `bus.Publish`, in order. -/
def published : List Op → List Event
  | [] => []
  | Op.Publish _ e _ :: t => e :: published t
  | _ :: t => published t

/-- A lock-contention error: a `sqlite3.Error` whose `Code` is `ErrLocked` or
`ErrBusy`. -/
def isLockContention : Err → Bool
  | some (.sqlite3Error code _) => decide (code = ErrLocked) || decide (code = ErrBusy)
  | _ => false

/-- The events passed to `bus.Publish` by the executor or, inside `Op.inner`,
by the calls the callbacks made. -/
def Op.publishedEvent : Op → Option Event
  | .Publish _ e _ => some e
  | .inner op => op.publishedEvent
  | _ => none

/-- Every event passed to `bus.Publish` during a run, nested calls included. -/
def publishedDeep (t : List Op) : List Event :=
  t.filterMap Op.publishedEvent

/-- The sessions on which the executor invoked its callback, in order. -/
def attempted : List Op → List Nat
  | [] => []
  | Op.callback s :: t => s :: attempted t
  | _ :: t => attempted t

/-- The sessions on which the executor called `Close`, in order. -/
def closed : List Op → List Nat
  | [] => []
  | Op.Close s :: t => s :: closed t
  | _ :: t => closed t

/-! ## Concrete stores, callbacks and worlds -/

/-- A store whose collaborators never fail. -/
def okStore (σ : Type) : SqlStore σ :=
  { Dialect := 0, Begin := fun _ _ => none, Rollback := fun _ _ => none,
    Commit := fun _ _ => none, Publish := fun _ _ => none }

/-- A callback that records nothing and returns `err`. -/
def constCallback (err : Err) : dbTransactionFunc σ :=
  fun _ w => { out := .returned err, world := w, trace := [] }

/-- The value `sqlite3.Error{Code: sqlite3.ErrLocked}`. -/
def lockedErr : GoError := .sqlite3Error ErrLocked 0

/-- The value `sqlite3.Error{Code: sqlite3.ErrBusy}`. -/
def busyErr : GoError := .sqlite3Error ErrBusy 0

/-- A world with no session; the callbacks keep a counter. -/
def emptyWorld : World Nat := { sessions := [], user := 0 }

/-- A callback that returns `e` on its first `n` invocations and `nil` afterwards;
it counts its invocations in the world. -/
def failFirst (n : Nat) (e : GoError) : dbTransactionFunc Nat :=
  fun _ w =>
    { out := .returned (if w.user < n then some e else none),
      world := { w with user := w.user + 1 }, trace := [] }

/-- A callback that records the events `evs` with `publishAfterCommit`, in
order, and returns `err`. -/
def recordThen (evs : List Event) (err : Err) : dbTransactionFunc σ :=
  fun sess w =>
    { out := .returned err,
      world := evs.foldl (fun w1 e => publishAfterCommit sess e w1) w, trace := [] }

/-- A function for `InTransaction`: it makes the nested call
`ss.WithTransactionalDbSession(ctx, callback)`, returns its error when there is
one, and otherwise returns `after`. -/
def nestedThen (ss : SqlStore σ) (fuel : Nat) (callback : dbTransactionFunc σ) (after : Err) :
    Context → World σ → Run σ :=
  fun ctx w =>
    let r := WithTransactionalDbSession ss fuel ctx callback w
    match r.out with
    | .returned none => { out := .returned after, world := r.world, trace := r.trace }
    | _ => r

/-- A store whose `Rollback` always fails with the error `other 2`; the other
collaborators never fail. -/
def rollbackFails : SqlStore Nat :=
  { Dialect := 0, Begin := fun _ _ => none, Rollback := fun _ _ => some (.other 2),
    Commit := fun _ _ => none, Publish := fun _ _ => none }

/-- A store whose `Commit` always fails with the error `other 5`. -/
def commitFails : SqlStore Nat :=
  { Dialect := 0, Begin := fun _ _ => none, Rollback := fun _ _ => none,
    Commit := fun _ _ => some (.other 5), Publish := fun _ _ => none }

/-- A store whose `bus.Publish` fails with `other 4` for the event 1 only. -/
def publishFails : SqlStore Nat :=
  { Dialect := 0, Begin := fun _ _ => none, Rollback := fun _ _ => none,
    Commit := fun _ _ => none,
    Publish := fun e _ => if e = 1 then some (.other 4) else none }

/-- A store of dialect 3 whose `Begin` always fails with `ErrBusy`. -/
def beginFails : SqlStore Nat :=
  { Dialect := 3, Begin := fun _ _ => some busyErr, Rollback := fun _ _ => none,
    Commit := fun _ _ => none, Publish := fun _ _ => none }

/-- The number of `Rollback` calls of the executor. -/
def rollbackCount : List Op → Nat
  | [] => 0
  | Op.Rollback _ _ :: t => rollbackCount t + 1
  | _ :: t => rollbackCount t

/-- The number of `Commit` calls of the executor. -/
def commitCount : List Op → Nat
  | [] => 0
  | Op.Commit _ _ :: t => commitCount t + 1
  | _ :: t => commitCount t

/-- A callback that records the event `10 + i` on its invocation number `i`
(counted from 0), returns `e` on its first `n` invocations and `nil` afterwards. -/
def recordFailFirst (n : Nat) (e : GoError) : dbTransactionFunc Nat :=
  fun sess w =>
    { out := .returned (if w.user < n then some e else none),
      world := publishAfterCommit sess (10 + w.user) { w with user := w.user + 1 },
      trace := [] }

/-- A world whose only session, at pointer 0, holds the pending event 7. -/
def pendingWorld : World Nat := { sessions := [{ events := [7], dialect := 0 }], user := 0 }

/-! ## The units of work of `datasource.go` and `apikey.go` -/

/-- What a Go function body does: it returns a value, or it panics. -/
inductive Panics (α : Type) where
  | done (a : α)
  | panic
  deriving DecidableEq, Repr

/-- A non-nil `sql.Result`, by what its method `RowsAffected()` answers. -/
structure SqlResult where
  RowsAffected : Int × Err
  deriving DecidableEq, Repr

/-- Modelled from the spec: `models.DeleteDataSourceByIdCommand` of `pkg/models`, which
is not among the sources; the fields are those `DeleteDataSourceById` uses. -/
structure DeleteDataSourceByIdCommand where
  Id : Int
  OrgId : Int
  DeletedDatasourcesCount : Int
  deriving DecidableEq, Repr

/-- Modelled from the spec: `models.DeleteDataSourceByNameCommand` of `pkg/models`,
which is not among the sources; the fields are those `DeleteDataSourceByName` uses. -/
structure DeleteDataSourceByNameCommand where
  Name : String
  OrgId : Int
  DeletedDatasourcesCount : Int
  deriving DecidableEq, Repr

/-- The callback of `DeleteDataSourceById`.  `Exec` gives the pair
`(result, err)` that `sess.Exec(rawSql, cmd.Id, cmd.OrgId)` answers; a `nil`
result is `none`.  The callback calls `result.RowsAffected()` before it looks at
`err`: on a `nil` result that call is a nil dereference. -/
def DeleteDataSourceByIdCallback (Exec : Int → Int → Option SqlResult × Err)
    (cmd : DeleteDataSourceByIdCommand) : Panics (Err × DeleteDataSourceByIdCommand) :=
  match Exec cmd.Id cmd.OrgId with
  | (none, _) => .panic
  | (some result, err) =>
    .done (err, { cmd with DeletedDatasourcesCount := result.RowsAffected.1 })

/-- The callback of `DeleteDataSourceByName`, the same with the name for the id. -/
def DeleteDataSourceByNameCallback (Exec : String → Int → Option SqlResult × Err)
    (cmd : DeleteDataSourceByNameCommand) : Panics (Err × DeleteDataSourceByNameCommand) :=
  match Exec cmd.Name cmd.OrgId with
  | (none, _) => .panic
  | (some result, err) =>
    .done (err, { cmd with DeletedDatasourcesCount := result.RowsAffected.1 })

/-- A `time.Time`, by its Unix seconds and the nanoseconds within the second. -/
structure Time where
  sec : Int
  nsec : Int
  deriving DecidableEq, Repr

/-- The constant `time.Second`, a `time.Duration` in nanoseconds. -/
def Second : Int := 1000000000

/-- The product of two `int64` values (wrapping), as in
`time.Second * time.Duration(cmd.SecondsToLive)`. -/
def mulInt (a b : Int) : Int :=
  (a * b + 9223372036854775808) % 18446744073709551616 - 9223372036854775808

/-- `t.Add(d)`: the time `d` nanoseconds after `t`, for a time whose seconds are
far from the limits of 64 bits, as a value of `timeNow()` is. -/
def Time.Add (t : Time) (d : Int) : Time :=
  { sec := t.sec + (t.nsec + d) / 1000000000, nsec := (t.nsec + d) % 1000000000 }

/-- `t.Unix()`. -/
def Time.Unix (t : Time) : Int := t.sec

/-- Modelled from the spec: `models.ApiKey` of `pkg/models`, which is not among the
sources; the fields are those `AddApiKey` sets, and `Id`. -/
structure ApiKey where
  Id : Int
  OrgId : Int
  Name : String
  Role : String
  Key : String
  Created : Time
  Updated : Time
  Expires : Option Int
  deriving DecidableEq, Repr

/-- Modelled from the spec: `models.AddApiKeyCommand` of `pkg/models`, which is not
among the sources; the fields are those `AddApiKey` uses. -/
structure AddApiKeyCommand where
  Name : String
  Role : String
  OrgId : Int
  Key : String
  SecondsToLive : Int
  Result : Option ApiKey
  deriving DecidableEq, Repr

/-- Modelled from the spec: the error value `models.ErrDuplicateApiKey`. -/
def ErrDuplicateApiKey : GoError := .other 101

/-- Modelled from the spec: the error value `models.ErrInvalidApiKeyExpiration`. -/
def ErrInvalidApiKeyExpiration : GoError := .other 102

/-- What the callback of `AddApiKey` leaves: the error it returns, the command,
and the keys it passed to `sess.Insert`. -/
structure AddApiKeyRun where
  err : Err
  cmd : AddApiKeyCommand
  inserted : List ApiKey
  deriving DecidableEq, Repr

/-- Lines 57 to 71 of `apikey.go`: the key `t` is built with the expiry
`expires`, passed to `sess.Insert`, and stored in `cmd.Result` when the insert
succeeds.  `Insert` gives the key as `sess.Insert(&t)` leaves it and the error
it returns. -/
def AddApiKeyInsert (Insert : ApiKey → ApiKey × Err) (cmd : AddApiKeyCommand) (updated : Time)
    (expires : Option Int) : AddApiKeyRun :=
  let t : ApiKey :=
    { Id := 0, OrgId := cmd.OrgId, Name := cmd.Name, Role := cmd.Role, Key := cmd.Key,
      Created := updated, Updated := updated, Expires := expires }
  match Insert t with
  | (_, some err) => { err := some err, cmd := cmd, inserted := [t] }
  | (t1, none) => { err := none, cmd := { cmd with Result := some t1 }, inserted := [t] }

/-- The callback of `AddApiKey`.  `Get` gives what `sess.Get(&key)` answers for
the org and the name, `timeNow` the value of `timeNow()`. -/
def AddApiKeyCallback (Get : Int → String → Bool × Err) (Insert : ApiKey → ApiKey × Err)
    (timeNow : Time) (cmd : AddApiKeyCommand) : AddApiKeyRun :=
  match Get cmd.OrgId cmd.Name with
  | (_, some err) => { err := some err, cmd := cmd, inserted := [] }
  | (true, none) => { err := some ErrDuplicateApiKey, cmd := cmd, inserted := [] }
  | (false, none) =>
    let updated := timeNow
    if cmd.SecondsToLive > 0 then
      AddApiKeyInsert Insert cmd updated
        (some (updated.Add (mulInt Second cmd.SecondsToLive)).Unix)
    else if cmd.SecondsToLive < 0 then
      { err := some ErrInvalidApiKeyExpiration, cmd := cmd, inserted := [] }
    else
      AddApiKeyInsert Insert cmd updated none

/-- A `sess.Get` that finds no key. -/
def getNone : Int → String → Bool × Err := fun _ _ => (false, none)

/-- A `sess.Insert` that succeeds and gives the key the id 1. -/
def insertOk : ApiKey → ApiKey × Err := fun t => ({ t with Id := 1 }, none)

/-- The command to add a key that lives `stl` seconds. -/
def addKeyCmd (stl : Int) : AddApiKeyCommand :=
  { Name := "k", Role := "Viewer", OrgId := 1, Key := "h", SecondsToLive := stl, Result := none }

/-- A value of `timeNow()`: 1600000000 seconds and 5 nanoseconds. -/
def someNow : Time := { sec := 1600000000, nsec := 5 }

/-! ## Lemmas on traces and on the parts of the executor -/

theorem callbackCount_append (a b : List Op) :
    callbackCount (a ++ b) = callbackCount a + callbackCount b := by
  induction a with
  | nil => simp [callbackCount]
  | cons x t ih => cases x <;> simp [callbackCount, ih]; omega

theorem callbackCount_map_inner (a : List Op) : callbackCount (a.map Op.inner) = 0 := by
  induction a with
  | nil => simp [callbackCount]
  | cons x t ih => simp [callbackCount, ih]

theorem published_append (a b : List Op) :
    published (a ++ b) = published a ++ published b := by
  induction a with
  | nil => simp [published]
  | cons x t ih => cases x <;> simp [published, ih]

theorem published_map_inner (a : List Op) : published (a.map Op.inner) = [] := by
  induction a with
  | nil => simp [published]
  | cons x t ih => simp [published, ih]

theorem published_publishAll (ss : SqlStore σ) (sess : Nat) (w : World σ) (es : List Event) :
    published (publishAll ss sess w es) = es := by
  induction es with
  | nil => simp [publishAll, published]
  | cons e t ih => simp [publishAll, published, ih]

theorem callbackCount_publishAll (ss : SqlStore σ) (sess : Nat) (w : World σ)
    (es : List Event) : callbackCount (publishAll ss sess w es) = 0 := by
  induction es with
  | nil => simp [publishAll, callbackCount]
  | cons e t ih => simp [publishAll, callbackCount, ih]

/-- What `startSession` can answer: the bound session and nothing done, or a
new session at the end of the heap. -/
theorem startSession_cases (ss : SqlStore σ) (ctx : Context) (b : Bool) (w : World σ)
    (res : Except GoError Nat) (w1 : World σ) (t1 : List Op)
    (hs : startSession ss ctx b w = (res, w1, t1)) :
    (ctx.Value = some (match res with | .ok s => s | .error _ => 0) ∧ w1 = w ∧ t1 = [] ∧
      ∃ s, res = .ok s) ∨
    (ctx.Value = none ∧
      w1 = { w with sessions := w.sessions ++ [{ events := [], dialect := ss.Dialect }] } ∧
      (t1 = [Op.NewSession w.sessions.length] ∨
        ∃ r, t1 = [Op.NewSession w.sessions.length, Op.Begin w.sessions.length r]) ∧
      (∀ s, res = .ok s → s = w.sessions.length)) := by
  unfold startSession at hs
  cases hv : ctx.Value with
  | some s =>
    simp only [hv, Prod.mk.injEq] at hs
    obtain ⟨h1, h2, h3⟩ := hs
    subst h1 h2 h3
    exact Or.inl ⟨rfl, rfl, rfl, s, rfl⟩
  | none =>
    simp only [hv] at hs
    right
    refine ⟨rfl, ?_⟩
    cases b with
    | false =>
      simp only [Bool.false_eq_true, if_false, Prod.mk.injEq] at hs
      obtain ⟨h1, h2, h3⟩ := hs
      subst h1 h2 h3
      exact ⟨rfl, Or.inl rfl, fun s h => by injection h with h; exact h.symm⟩
    | true =>
      simp only [if_true] at hs
      cases hb : ss.Begin w.sessions.length
          { w with sessions := w.sessions ++ [{ events := [], dialect := ss.Dialect }] } with
      | none =>
        simp only [hb, Prod.mk.injEq] at hs
        obtain ⟨h1, h2, h3⟩ := hs
        subst h1 h2 h3
        exact ⟨rfl, Or.inr ⟨_, rfl⟩, fun s h => by injection h with h; exact h.symm⟩
      | some e =>
        simp only [hb, Prod.mk.injEq] at hs
        obtain ⟨h1, h2, h3⟩ := hs
        subst h1 h2 h3
        exact ⟨rfl, Or.inr ⟨_, rfl⟩, fun s h => by injection h⟩

/-- The operations of `startSession` hold no callback invocation, and no
`Publish`. -/
theorem startSession_trace (ss : SqlStore σ) (ctx : Context) (b : Bool) (w : World σ)
    (res : Except GoError Nat) (w1 : World σ) (t1 : List Op)
    (hs : startSession ss ctx b w = (res, w1, t1)) :
    callbackCount t1 = 0 ∧ published t1 = [] := by
  rcases startSession_cases ss ctx b w res w1 t1 hs with ⟨_, _, h, _⟩ | ⟨_, _, h | ⟨r, h⟩, _⟩ <;>
    subst h <;> simp [callbackCount, published]

/-- When `Begin` never fails, `startSession` answers a session. -/
theorem startSession_ok_of_begin (ss : SqlStore σ) (hB : ∀ s w, ss.Begin s w = none)
    (ctx : Context) (w : World σ) :
    ∃ sess w1 t1, startSession ss ctx true w = (.ok sess, w1, t1) := by
  unfold startSession
  cases h : ctx.Value with
  | some s => exact ⟨s, w, [], rfl⟩
  | none => simp only [hB]; exact ⟨_, _, _, rfl⟩

theorem retryCondition_busy (ext retry : Int) :
    retryCondition (some (.sqlite3Error ErrBusy ext)) retry = true := by
  simp [retryCondition, assertSqlite3Error]

/-- A callback that always answers `ErrBusy` is retried whatever the counter:
with `fuel` nested calls allowed the callback has run `fuel` times and the
executor has not returned. -/
theorem busy_never_returns (ss : SqlStore σ) (hB : ∀ s w, ss.Begin s w = none)
    (hR : ∀ s w, ss.Rollback s w = none) (callback : dbTransactionFunc σ)
    (hcb : ∀ s w, ∃ ext, (callback s w).out = .returned (some (.sqlite3Error ErrBusy ext)))
    (fuel : Nat) : ∀ (ctx : Context) (retry : Int) (w : World σ),
    (inTransactionWithRetryCtx ss fuel ctx callback retry w).out = .diverged ∧
    callbackCount (inTransactionWithRetryCtx ss fuel ctx callback retry w).trace = fuel := by
  induction fuel with
  | zero => intro ctx retry w; simp [inTransactionWithRetryCtx, callbackCount]
  | succ n ih =>
    intro ctx retry w
    obtain ⟨sess, w1, t1, hs⟩ := startSession_ok_of_begin ss hB ctx w
    have ht := (startSession_trace ss ctx true w _ w1 t1 hs).1
    obtain ⟨ext, hc⟩ := hcb sess w1
    have h := ih .Background (addInt retry 1) (callback sess w1).world
    simp only [inTransactionWithRetryCtx, hs, hc, retryCondition_busy, hR, if_true, h.1]
    simp [callbackCount_append, callbackCount_map_inner, ht, h.2, callbackCount]

theorem retryCondition_none (retry : Int) : retryCondition none retry = false := by
  simp [retryCondition, assertSqlite3Error, ErrBusy]

theorem retryCondition_of_lock (e : Err) (retry : Int) (h : isLockContention e = true)
    (hr : retry < 5) : retryCondition e retry = true := by
  match e, h with
  | some (.sqlite3Error code _), h =>
    simp only [isLockContention, Bool.or_eq_true, decide_eq_true_eq] at h
    simp only [retryCondition, assertSqlite3Error, Bool.true_and, Bool.or_eq_true,
      Bool.and_eq_true, decide_eq_true_eq]
    rcases h with h | h
    · exact Or.inl ⟨hr, h⟩
    · exact Or.inr h

theorem retryCondition_of_not_lock (e : Err) (retry : Int) (h : isLockContention e = false) :
    retryCondition e retry = false := by
  match e, h with
  | none, _ => exact retryCondition_none retry
  | some (.other _), _ => simp [retryCondition, assertSqlite3Error, ErrBusy]
  | some (.wrapf _ _), _ => simp [retryCondition, assertSqlite3Error, ErrBusy]
  | some (.sqlite3Error code _), h =>
    simp only [isLockContention, Bool.or_eq_false_iff, decide_eq_false_iff_not] at h
    simp [retryCondition, assertSqlite3Error, h.1, h.2]

theorem addInt_one (a : Int) (h1 : -9223372036854775808 ≤ a) (h2 : a < 9223372036854775807) :
    addInt a 1 = a + 1 := by
  unfold addInt
  omega

theorem mem_map_inner_publish (t : List Op) (s : Nat) (e : Event) (res : Err) :
    Op.Publish s e res ∉ t.map Op.inner := by
  simp

theorem mem_publishAll (ss : SqlStore σ) (sess : Nat) (w : World σ) (es : List Event)
    (s : Nat) (e : Event) (res : Err) (h : Op.Publish s e res ∈ publishAll ss sess w es) :
    s = sess ∧ e ∈ es := by
  induction es with
  | nil => simp [publishAll] at h
  | cons x t ih =>
    simp only [publishAll, List.mem_cons, Op.Publish.injEq] at h
    rcases h with ⟨h1, h2, _⟩ | h
    · exact ⟨h1, by simp [h2]⟩
    · exact ⟨(ih h).1, by simp [(ih h).2]⟩

/-- Where a `Publish` in the trace of one call comes from: the loop after the
commit of this attempt, which needs a callback that returned `nil`, or the
nested call that retries. -/
theorem publish_mem_step (ss : SqlStore σ) (fuel : Nat) (ctx : Context)
    (callback : dbTransactionFunc σ) (retry : Int) (w : World σ) (sess : Nat) (w1 : World σ)
    (t1 : List Op) (hs : startSession ss ctx true w = (.ok sess, w1, t1))
    (s : Nat) (e : Event) (res : Err)
    (h : Op.Publish s e res ∈ (inTransactionWithRetryCtx ss (fuel + 1) ctx callback retry w).trace) :
    (s = sess ∧ (callback sess w1).out = .returned none) ∨
    Op.Publish s e res ∈ (inTransactionWithRetryCtx ss fuel .Background callback
      (addInt retry 1) (callback sess w1).world).trace := by
  have ht : Op.Publish s e res ∉ t1 := by
    rcases startSession_cases ss ctx true w _ w1 t1 hs with ⟨_, _, h, _⟩ | ⟨_, _, h | ⟨r, h⟩, _⟩ <;>
      subst h <;> simp
  simp only [inTransactionWithRetryCtx, hs] at h
  split at h
  · simp [ht] at h
  · rename_i err hc
    split at h
    · split at h
      · simp [ht] at h
      · split at h
        · simp only [List.mem_append] at h
          rcases h with h | h
          · simp [ht] at h
          · exact Or.inr h
        · simp only [List.mem_append] at h
          rcases h with (h | h) | h
          · simp [ht] at h
          · exact Or.inr h
          · simp at h
    · split at h
      · split at h <;> simp [ht] at h
      · split at h
        · simp [ht] at h
        · simp only [List.mem_append] at h
          rcases h with (h | h) | h
          · simp [ht] at h
          · exact Or.inl ⟨(mem_publishAll _ _ _ _ _ _ _ h).1, hc⟩
          · simp at h

theorem startSession_user (ss : SqlStore σ) (ctx : Context) (b : Bool) (w : World σ)
    (res : Except GoError Nat) (w1 : World σ) (t1 : List Op)
    (hs : startSession ss ctx b w = (res, w1, t1)) : w1.user = w.user := by
  rcases startSession_cases ss ctx b w res w1 t1 hs with ⟨_, h, _⟩ | ⟨_, h, _⟩ <;> subst h <;> rfl

/-- The heap after `startSession`: it has not shrunk, and the session answered
is in it when the pointer bound to the context, if any, was. -/
theorem startSession_heap (ss : SqlStore σ) (ctx : Context) (b : Bool) (w : World σ)
    (sess : Nat) (w1 : World σ) (t1 : List Op)
    (hs : startSession ss ctx b w = (.ok sess, w1, t1))
    (hctx : ∀ s, ctx.Value = some s → s < w.sessions.length) :
    w.sessions.length ≤ w1.sessions.length ∧ sess < w1.sessions.length := by
  rcases startSession_cases ss ctx b w _ w1 t1 hs with ⟨hv, h, _⟩ | ⟨_, h, _, hn⟩
  · subst h
    exact ⟨le_refl _, hctx sess hv⟩
  · subst h
    have := hn sess rfl
    subst this
    simp

/-- A new session has no pending event. -/
theorem startSession_events_new (ss : SqlStore σ) (ctx : Context) (b : Bool) (w : World σ)
    (sess : Nat) (w1 : World σ) (t1 : List Op)
    (hs : startSession ss ctx b w = (.ok sess, w1, t1)) (hctx : ctx.Value = none) :
    w1.events sess = [] := by
  rcases startSession_cases ss ctx b w _ w1 t1 hs with ⟨hv, _⟩ | ⟨_, h, _, hn⟩
  · simp [hctx] at hv
  · subst h
    have := hn sess rfl
    subst this
    simp [World.events]

/-- The sessions whose events a call on the background context publishes were
created by it: their pointers lie beyond the heap the call started from. -/
theorem publish_fresh (ss : SqlStore σ) (callback : dbTransactionFunc σ)
    (hmono : ∀ s w, w.sessions.length ≤ (callback s w).world.sessions.length)
    (s : Nat) (e : Event) (res : Err) (fuel : Nat) : ∀ (retry : Int) (w : World σ),
    Op.Publish s e res ∈ (inTransactionWithRetryCtx ss fuel .Background callback retry w).trace →
    w.sessions.length ≤ s := by
  induction fuel with
  | zero => intro retry w h; simp [inTransactionWithRetryCtx] at h
  | succ n ih =>
    intro retry w h
    rcases hst : startSession ss .Background true w with ⟨res1, w1, t1⟩
    cases res1 with
    | error err =>
      have ht : Op.Publish s e res ∉ t1 := by
        rcases startSession_cases ss _ true w _ w1 t1 hst with ⟨_, _, h, _⟩ | ⟨_, _, h | ⟨r, h⟩, _⟩ <;>
          subst h <;> simp
      simp only [inTransactionWithRetryCtx, hst] at h
      exact absurd h ht
    | ok sess =>
      rcases startSession_cases ss _ true w _ w1 t1 hst with ⟨hv, _⟩ | ⟨_, hw, _, hn⟩
      · simp [Context.Value] at hv
      · have hsess := hn sess rfl
        rcases publish_mem_step ss n _ callback retry w sess w1 t1 hst s e res h with ⟨h1, _⟩ | h2
        · omega
        · have := ih _ _ h2
          have hm := hmono sess w1
          subst hw
          simp at hm
          omega

/-- The retry chain of a callback that fails with a lock-contention error
while its invocation counter `k` is below `N`, and succeeds when it is `N`. -/
theorem retry_chain (ss : SqlStore σ) (hB : ∀ s w, ss.Begin s w = none)
    (hR : ∀ s w, ss.Rollback s w = none) (hC : ∀ s w, ss.Commit s w = none)
    (callback : dbTransactionFunc σ) (k : σ → Nat) (N : Nat) (hN : N < 5)
    (hk : ∀ s w, k (callback s w).world.user = k w.user + 1)
    (hfail : ∀ s w, k w.user < N →
      ∃ e, (callback s w).out = .returned e ∧ isLockContention e = true)
    (hok : ∀ s w, k w.user = N → (callback s w).out = .returned none)
    (j : Nat) : ∀ (i : Nat) (ctx : Context) (w : World σ) (fuel : Nat),
    i + j = N → k w.user = i → j < fuel →
    (inTransactionWithRetryCtx ss fuel ctx callback (i : Int) w).out = .returned none ∧
    callbackCount (inTransactionWithRetryCtx ss fuel ctx callback (i : Int) w).trace = j + 1 := by
  induction j with
  | zero =>
    intro i ctx w fuel hij hki hf
    obtain ⟨f, rfl⟩ : ∃ f, fuel = f + 1 := ⟨fuel - 1, by omega⟩
    obtain ⟨sess, w1, t1, hs⟩ := startSession_ok_of_begin ss hB ctx w
    have ht := (startSession_trace ss ctx true w _ w1 t1 hs).1
    have hu := startSession_user ss ctx true w _ w1 t1 hs
    have hc := hok sess w1 (by rw [hu]; omega)
    simp only [inTransactionWithRetryCtx, hs, hc, retryCondition_none, hC]
    simp [callbackCount_append, callbackCount_map_inner, callbackCount_publishAll, ht,
      callbackCount]
  | succ j ih =>
    intro i ctx w fuel hij hki hf
    obtain ⟨f, rfl⟩ : ∃ f, fuel = f + 1 := ⟨fuel - 1, by omega⟩
    obtain ⟨sess, w1, t1, hs⟩ := startSession_ok_of_begin ss hB ctx w
    have ht := (startSession_trace ss ctx true w _ w1 t1 hs).1
    have hu := startSession_user ss ctx true w _ w1 t1 hs
    obtain ⟨e, hc, he⟩ := hfail sess w1 (by rw [hu]; omega)
    have hr := retryCondition_of_lock e (i : Int) he (by omega)
    have ha : addInt (i : Int) 1 = (i : Int) + 1 := addInt_one _ (by omega) (by omega)
    have hk1 : k (callback sess w1).world.user = i + 1 := by rw [hk, hu, hki]
    have h := ih (i + 1) .Background (callback sess w1).world f (by omega) hk1 (by omega)
    rw [Nat.cast_add, Nat.cast_one] at h
    simp only [inTransactionWithRetryCtx, hs, hc, hr, hR, if_true, ha, h.1]
    simp [callbackCount_append, callbackCount_map_inner, ht, h.2, callbackCount]

/-- Every call that obtains a session starts with the operations of
`startSession`, the invocation of the callback and what the callback did. -/
theorem trace_prefix (ss : SqlStore σ) (fuel : Nat) (ctx : Context)
    (callback : dbTransactionFunc σ) (retry : Int) (w : World σ) (sess : Nat) (w1 : World σ)
    (t1 : List Op) (hs : startSession ss ctx true w = (.ok sess, w1, t1)) :
    ∃ rest, (inTransactionWithRetryCtx ss (fuel + 1) ctx callback retry w).trace =
      t1 ++ [Op.callback sess] ++ (callback sess w1).trace.map Op.inner ++ rest := by
  simp only [inTransactionWithRetryCtx, hs]
  split
  · exact ⟨[], by simp⟩
  · split
    · split
      · exact ⟨_, rfl⟩
      · split
        · exact ⟨_, by simp only [List.append_assoc]; rfl⟩
        · exact ⟨_, by simp only [List.append_assoc]; rfl⟩
    · split
      · split <;> exact ⟨_, rfl⟩
      · split
        · exact ⟨_, rfl⟩
        · exact ⟨_, by simp only [List.append_assoc]; rfl⟩

/-- A call whose callback returned an error issues `Rollback` on the session of
the attempt right after the callback. -/
theorem trace_prefix_error (ss : SqlStore σ) (fuel : Nat) (ctx : Context)
    (callback : dbTransactionFunc σ) (retry : Int) (w : World σ) (sess : Nat) (w1 : World σ)
    (t1 : List Op) (e : GoError) (hs : startSession ss ctx true w = (.ok sess, w1, t1))
    (hcb : (callback sess w1).out = .returned (some e)) :
    ∃ rest, (inTransactionWithRetryCtx ss (fuel + 1) ctx callback retry w).trace =
      t1 ++ [Op.callback sess] ++ (callback sess w1).trace.map Op.inner ++
        [Op.Rollback sess (ss.Rollback sess (callback sess w1).world)] ++ rest := by
  simp only [inTransactionWithRetryCtx, hs, hcb]
  split
  · split
    · rename_i h; rw [h]; exact ⟨[Op.Close sess], by simp⟩
    · rename_i h; rw [h]
      split
      · exact ⟨_, by simp only [List.append_assoc, List.cons_append, List.nil_append]; rfl⟩
      · exact ⟨_, by simp only [List.append_assoc, List.cons_append, List.nil_append]; rfl⟩
  · split
    · rename_i h; rw [h]; exact ⟨[Op.Close sess], by simp⟩
    · rename_i h; rw [h]; exact ⟨[Op.Close sess], by simp⟩

theorem startSession_bound (ss : SqlStore σ) (ctx : Context) (sess : Nat) (b : Bool)
    (w : World σ) : startSession ss (Context.WithValue ctx sess) b w = (.ok sess, w, []) := by
  simp [startSession, Context.Value]

theorem retryCondition_locked_ceiling (ext retry : Int) (h : 5 ≤ retry) :
    retryCondition (some (.sqlite3Error ErrLocked ext)) retry = false := by
  simp only [retryCondition, assertSqlite3Error, ErrLocked, ErrBusy]
  have : ¬ retry < 5 := by omega
  simp [this]

/-- The half of the retry ceiling that the code keeps: a callback that always
answers `ErrLocked`, with `Begin` and `Rollback` succeeding, is invoked `j + 1`
times when the counter starts at `5 - j`, and the call returns an `ErrLocked`
error.  From the counter `0` that is 6 invocations. -/
theorem locked_attempts (ss : SqlStore σ) (hB : ∀ s w, ss.Begin s w = none)
    (hR : ∀ s w, ss.Rollback s w = none) (callback : dbTransactionFunc σ)
    (hcb : ∀ s w, ∃ ext, (callback s w).out = .returned (some (.sqlite3Error ErrLocked ext)))
    (j : Nat) : ∀ (i : Nat) (ctx : Context) (w : World σ) (fuel : Nat),
    i + j = 5 → j < fuel →
    (∃ ext, (inTransactionWithRetryCtx ss fuel ctx callback (i : Int) w).out =
      .returned (some (.sqlite3Error ErrLocked ext))) ∧
    callbackCount (inTransactionWithRetryCtx ss fuel ctx callback (i : Int) w).trace = j + 1 := by
  induction j with
  | zero =>
    intro i ctx w fuel hij hf
    obtain ⟨f, rfl⟩ : ∃ f, fuel = f + 1 := ⟨fuel - 1, by omega⟩
    obtain ⟨sess, w1, t1, hs⟩ := startSession_ok_of_begin ss hB ctx w
    have ht := (startSession_trace ss ctx true w _ w1 t1 hs).1
    obtain ⟨ext, hc⟩ := hcb sess w1
    have hr := retryCondition_locked_ceiling ext (i : Int) (by omega)
    simp only [inTransactionWithRetryCtx, hs, hc, hr, hR, Bool.false_eq_true, if_false]
    exact ⟨⟨ext, rfl⟩, by
      simp [callbackCount_append, callbackCount_map_inner, ht, callbackCount]⟩
  | succ j ih =>
    intro i ctx w fuel hij hf
    obtain ⟨f, rfl⟩ : ∃ f, fuel = f + 1 := ⟨fuel - 1, by omega⟩
    obtain ⟨sess, w1, t1, hs⟩ := startSession_ok_of_begin ss hB ctx w
    have ht := (startSession_trace ss ctx true w _ w1 t1 hs).1
    obtain ⟨ext, hc⟩ := hcb sess w1
    have hr := retryCondition_of_lock (some (.sqlite3Error ErrLocked ext)) (i : Int)
      (by simp [isLockContention]) (by omega)
    have ha : addInt (i : Int) 1 = (i : Int) + 1 := addInt_one _ (by omega) (by omega)
    have h := ih (i + 1) .Background (callback sess w1).world f (by omega) (by omega)
    rw [Nat.cast_add, Nat.cast_one] at h
    obtain ⟨⟨ext2, h1⟩, h2⟩ := h
    simp only [inTransactionWithRetryCtx, hs, hc, hr, hR, if_true, ha, h1]
    exact ⟨⟨ext2, rfl⟩, by
      simp [callbackCount_append, callbackCount_map_inner, ht, h2, callbackCount]⟩

/-- A call whose callback returns `nil` and whose `Commit` succeeds: what it
returns, the world it leaves and the operations it issues. -/
theorem run_commit (ss : SqlStore σ) (fuel : Nat) (ctx : Context)
    (callback : dbTransactionFunc σ) (retry : Int) (w : World σ) (sess : Nat) (w1 : World σ)
    (t1 : List Op) (hs : startSession ss ctx true w = (.ok sess, w1, t1))
    (hcb : (callback sess w1).out = .returned none)
    (hC : ss.Commit sess (callback sess w1).world = none) :
    inTransactionWithRetryCtx ss (fuel + 1) ctx callback retry w =
      { out := .returned none, world := (callback sess w1).world,
        trace := t1 ++ [Op.callback sess] ++ (callback sess w1).trace.map Op.inner ++
          [Op.Commit sess none] ++
          publishAll ss sess (callback sess w1).world ((callback sess w1).world.events sess) ++
          [Op.Close sess] } := by
  simp only [inTransactionWithRetryCtx, hs, hcb, retryCondition_none, hC, Bool.false_eq_true,
    if_false]

theorem rollbackCount_append (a b : List Op) :
    rollbackCount (a ++ b) = rollbackCount a + rollbackCount b := by
  induction a with
  | nil => simp [rollbackCount]
  | cons x t ih => cases x <;> simp [rollbackCount, ih]; omega

theorem rollbackCount_map_inner (a : List Op) : rollbackCount (a.map Op.inner) = 0 := by
  induction a with
  | nil => simp [rollbackCount]
  | cons x t ih => simp [rollbackCount, ih]

theorem startSession_rollbackCount (ss : SqlStore σ) (ctx : Context) (b : Bool) (w : World σ)
    (res : Except GoError Nat) (w1 : World σ) (t1 : List Op)
    (hs : startSession ss ctx b w = (res, w1, t1)) : rollbackCount t1 = 0 := by
  rcases startSession_cases ss ctx b w res w1 t1 hs with ⟨_, _, h, _⟩ | ⟨_, _, h | ⟨r, h⟩, _⟩ <;>
    subst h <;> simp [rollbackCount]

theorem publishAll_eq_map (ss : SqlStore σ) (sess : Nat) (w : World σ) (es : List Event) :
    publishAll ss sess w es = es.map fun e => Op.Publish sess e (ss.Publish e w) := by
  induction es with
  | nil => rfl
  | cons e t ih => simp [publishAll, ih]

theorem commitCount_append (a b : List Op) :
    commitCount (a ++ b) = commitCount a + commitCount b := by
  induction a with
  | nil => simp [commitCount]
  | cons x t ih => cases x <;> simp [commitCount, ih]; omega

theorem commitCount_map_inner (a : List Op) : commitCount (a.map Op.inner) = 0 := by
  induction a with
  | nil => simp [commitCount]
  | cons x t ih => simp [commitCount, ih]

theorem startSession_background (ss : SqlStore σ) (w : World σ) (res : Except GoError Nat)
    (w1 : World σ) (t1 : List Op)
    (hs : startSession ss .Background true w = (res, w1, t1)) :
    w1 = { w with sessions := w.sessions ++ [{ events := [], dialect := ss.Dialect }] } ∧
    (∃ r, t1 = [Op.NewSession w.sessions.length, Op.Begin w.sessions.length r] ∧
      ((∃ s, res = .ok s) → r = none)) ∧
    (∀ s, res = .ok s → s = w.sessions.length) := by
  unfold startSession at hs
  simp only [Context.Value, if_true] at hs
  cases hb : ss.Begin w.sessions.length
      { w with sessions := w.sessions ++ [{ events := [], dialect := ss.Dialect }] } with
  | none =>
    simp only [hb, Prod.mk.injEq] at hs
    obtain ⟨h1, h2, h3⟩ := hs
    subst h1 h2 h3
    exact ⟨rfl, ⟨_, rfl, fun _ => rfl⟩, fun s h => by injection h with h; exact h.symm⟩
  | some e =>
    simp only [hb, Prod.mk.injEq] at hs
    obtain ⟨h1, h2, h3⟩ := hs
    subst h1 h2 h3
    exact ⟨rfl, ⟨_, rfl, fun ⟨s, h⟩ => by injection h⟩, fun s h => by injection h⟩

/-- A call on the background context that returns `nil`: what it published is
the pending list of one session, which the call created and which was empty
when the successful attempt started. -/
theorem success_background (ss : SqlStore σ) (callback : dbTransactionFunc σ)
    (hmono : ∀ s w, w.sessions.length ≤ (callback s w).world.sessions.length)
    (fuel : Nat) : ∀ (retry : Int) (w : World σ),
    (inTransactionWithRetryCtx ss fuel .Background callback retry w).out = .returned none →
    ∃ s w1, w.sessions.length ≤ s ∧ w1.events s = [] ∧
      (callback s w1).out = .returned none ∧
      published (inTransactionWithRetryCtx ss fuel .Background callback retry w).trace =
        (callback s w1).world.events s := by
  induction fuel with
  | zero => intro retry w h; simp [inTransactionWithRetryCtx] at h
  | succ n ih =>
    intro retry w h
    rcases hst : startSession ss .Background true w with ⟨res, w1, t1⟩
    cases res with
    | error err => simp [inTransactionWithRetryCtx, hst] at h
    | ok sess =>
      have ht := (startSession_trace ss _ true w _ w1 t1 hst).2
      have hlen := (startSession_background ss w _ w1 t1 hst).2.2 sess rfl
      have hw1 := (startSession_heap ss _ true w sess w1 t1 hst
        (fun s hs => by simp [Context.Value] at hs)).1
      cases hc : (callback sess w1).out with
      | diverged => simp [inTransactionWithRetryCtx, hst, hc] at h
      | returned err =>
        cases hr : retryCondition err retry with
        | true =>
          cases hR : ss.Rollback sess (callback sess w1).world with
          | some rollErr =>
            cases err with
            | none => simp [retryCondition_none] at hr
            | some e1 => simp [inTransactionWithRetryCtx, hst, hc, hr, hR, Wrapf] at h
          | none =>
            cases hn : (inTransactionWithRetryCtx ss n .Background callback (addInt retry 1)
                (callback sess w1).world).out with
            | diverged => simp [inTransactionWithRetryCtx, hst, hc, hr, hR, hn] at h
            | returned e2 =>
              have he2 : e2 = none := by
                simpa [inTransactionWithRetryCtx, hst, hc, hr, hR, hn] using h
              subst he2
              obtain ⟨s, w2, h1, h2, h3, h4⟩ := ih _ _ hn
              refine ⟨s, w2, ?_, h2, h3, ?_⟩
              · have := hmono sess w1
                omega
              · simp only [inTransactionWithRetryCtx, hst, hc, hr, hR, hn, if_true]
                simp [published_append, published_map_inner, ht, published, h4]
        | false =>
          cases err with
          | some e1 =>
            cases hR : ss.Rollback sess (callback sess w1).world <;>
              simp [inTransactionWithRetryCtx, hst, hc, hr, hR, Wrapf] at h
          | none =>
            cases hC : ss.Commit sess (callback sess w1).world with
            | some e1 => simp [inTransactionWithRetryCtx, hst, hc, hr, hC] at h
            | none =>
              refine ⟨sess, w1, by omega,
                startSession_events_new ss _ true w sess w1 t1 hst rfl, hc, ?_⟩
              rw [run_commit ss n _ callback retry w sess w1 t1 hst hc hC]
              simp [published_append, published_map_inner, published_publishAll, ht, published]

theorem append_eq_append_cons (X Y pre post : List Op) (x : Op)
    (h : X ++ Y = pre ++ x :: post) :
    (∃ m, X = pre ++ x :: m ∧ post = m ++ Y) ∨ (∃ m, pre = X ++ m ∧ Y = m ++ x :: post) := by
  rcases List.append_eq_append_iff.mp h with ⟨m, h1, h2⟩ | ⟨m, h1, h2⟩
  · exact Or.inr ⟨m, h1, h2⟩
  · cases m with
    | nil =>
      refine Or.inr ⟨[], by simpa using h1.symm, ?_⟩
      simpa using h2.symm
    | cons y m =>
      simp only [List.cons_append, List.cons.injEq] at h2
      obtain ⟨hy, hm⟩ := h2
      subst hy
      exact Or.inl ⟨m, h1, hm⟩

theorem callbackCount_split (l pre post : List Op) (s : Nat)
    (h : l = pre ++ Op.callback s :: post) :
    callbackCount l = callbackCount pre + callbackCount post + 1 := by
  subst h
  simp [callbackCount_append, callbackCount]
  omega

/-- The shape of the trace of a call that obtained a session: after the
callback either no callback is invoked any more, or the `Rollback` succeeded and
the trace of the retry follows `Rollback` and `Sleep`. -/
theorem trace_shape (ss : SqlStore σ) (fuel : Nat) (ctx : Context)
    (callback : dbTransactionFunc σ) (retry : Int) (w : World σ) (sess : Nat) (w1 : World σ)
    (t1 : List Op) (hs : startSession ss ctx true w = (.ok sess, w1, t1)) :
    ∃ tail, (inTransactionWithRetryCtx ss (fuel + 1) ctx callback retry w).trace =
        t1 ++ Op.callback sess :: ((callback sess w1).trace.map Op.inner ++ tail) ∧
      (callbackCount tail = 0 ∨
        ∃ C, tail = Op.Rollback sess none :: Op.Sleep ::
            ((inTransactionWithRetryCtx ss fuel .Background callback (addInt retry 1)
              (callback sess w1).world).trace ++ C) ∧
          callbackCount C = 0) := by
  cases hc : (callback sess w1).out with
  | diverged =>
    exact ⟨[], by simp [inTransactionWithRetryCtx, hs, hc], Or.inl rfl⟩
  | returned err =>
    cases hr : retryCondition err retry with
    | true =>
      cases hR : ss.Rollback sess (callback sess w1).world with
      | some rollErr =>
        exact ⟨[Op.Rollback sess (some rollErr), Op.Close sess],
          by simp [inTransactionWithRetryCtx, hs, hc, hr, hR], Or.inl rfl⟩
      | none =>
        cases hn : (inTransactionWithRetryCtx ss fuel .Background callback (addInt retry 1)
            (callback sess w1).world).out with
        | diverged =>
          exact ⟨_, by simp [inTransactionWithRetryCtx, hs, hc, hr, hR, hn]; rfl,
            Or.inr ⟨[], by simp, rfl⟩⟩
        | returned e2 =>
          exact ⟨_, by simp [inTransactionWithRetryCtx, hs, hc, hr, hR, hn],
            Or.inr ⟨[Op.Close sess], rfl, rfl⟩⟩
    | false =>
      cases err with
      | some e1 =>
        cases hR : ss.Rollback sess (callback sess w1).world with
        | some rollErr =>
          exact ⟨[Op.Rollback sess (some rollErr), Op.Close sess],
            by simp [inTransactionWithRetryCtx, hs, hc, hr, hR], Or.inl rfl⟩
        | none =>
          exact ⟨[Op.Rollback sess none, Op.Close sess],
            by simp [inTransactionWithRetryCtx, hs, hc, hr, hR], Or.inl rfl⟩
      | none =>
        cases hC : ss.Commit sess (callback sess w1).world with
        | some e1 =>
          exact ⟨[Op.Commit sess (some e1), Op.Close sess],
            by simp [inTransactionWithRetryCtx, hs, hc, hr, hC], Or.inl rfl⟩
        | none =>
          exact ⟨Op.Commit sess none :: (publishAll ss sess (callback sess w1).world
              ((callback sess w1).world.events sess) ++ [Op.Close sess]),
            by simp [inTransactionWithRetryCtx, hs, hc, hr, hC],
            by simp [callbackCount, callbackCount_append, callbackCount_publishAll]⟩

/-- In the trace of a call on the background context the first invocation of
the callback comes right after the creation and the successful `Begin` of its
session. -/
theorem first_callback_background (ss : SqlStore σ) (callback : dbTransactionFunc σ)
    (fuel : Nat) (retry : Int) (w : World σ) (pre post : List Op) (s2 : Nat)
    (h : (inTransactionWithRetryCtx ss fuel .Background callback retry w).trace =
      pre ++ Op.callback s2 :: post)
    (h0 : callbackCount pre = 0) :
    pre = [Op.NewSession s2, Op.Begin s2 none] := by
  cases fuel with
  | zero => simp [inTransactionWithRetryCtx] at h
  | succ n =>
    rcases hst : startSession ss .Background true w with ⟨res, w1, t1⟩
    have ht := (startSession_trace ss _ true w _ w1 t1 hst).1
    cases res with
    | error err =>
      simp only [inTransactionWithRetryCtx, hst] at h
      have := callbackCount_split _ _ _ _ h
      omega
    | ok sess =>
      obtain ⟨_, ⟨r, hr1, hr2⟩, hlen⟩ := startSession_background ss w _ w1 t1 hst
      have hrn := hr2 ⟨sess, rfl⟩
      have hsess := hlen sess rfl
      obtain ⟨tail, hshape, _⟩ := trace_shape ss n .Background callback retry w sess w1 t1 hst
      rw [hshape] at h
      rcases append_eq_append_cons _ _ _ _ _ h with ⟨m, h1, _⟩ | ⟨m, h1, h2⟩
      · have := callbackCount_split _ _ _ _ h1
        omega
      · cases m with
        | nil =>
          simp only [List.nil_append, List.cons.injEq, Op.callback.injEq] at h2
          obtain ⟨h3, _⟩ := h2
          subst h3
          rw [h1, hr1, hrn, hsess]
          simp
        | cons y m =>
          simp only [List.cons_append, List.cons.injEq] at h2
          obtain ⟨hy, _⟩ := h2
          subst hy
          rw [h1] at h0
          simp [callbackCount_append, callbackCount] at h0

/-- Every invocation of the callback after the first comes right after the
successful `Rollback` of the session of the invocation before it, the pause, and
the creation and `Begin` of its own session. -/
theorem retry_after_rollback (ss : SqlStore σ) (callback : dbTransactionFunc σ)
    (fuel : Nat) : ∀ (ctx : Context) (retry : Int) (w : World σ) (pre post : List Op) (s2 : Nat),
    (inTransactionWithRetryCtx ss fuel ctx callback retry w).trace =
      pre ++ Op.callback s2 :: post →
    0 < callbackCount pre →
    ∃ (a : List Op) (s : Nat) (b : List Op), pre = a ++ Op.callback s ::
      (b.map Op.inner ++ [Op.Rollback s none, Op.Sleep, Op.NewSession s2, Op.Begin s2 none]) := by
  induction fuel with
  | zero => intro ctx retry w pre post s2 h; simp [inTransactionWithRetryCtx] at h
  | succ n ih =>
    intro ctx retry w pre post s2 h hpos
    rcases hst : startSession ss ctx true w with ⟨res, w1, t1⟩
    have ht := (startSession_trace ss _ true w _ w1 t1 hst).1
    cases res with
    | error err =>
      simp only [inTransactionWithRetryCtx, hst] at h
      have := callbackCount_split _ _ _ _ h
      omega
    | ok sess =>
      obtain ⟨tail, hshape, htail⟩ := trace_shape ss n ctx callback retry w sess w1 t1 hst
      rw [hshape] at h
      rcases append_eq_append_cons _ _ _ _ _ h with ⟨m, h1, _⟩ | ⟨m, h1, h2⟩
      · have := callbackCount_split _ _ _ _ h1
        omega
      · cases m with
        | nil =>
          rw [h1] at hpos
          simp [ht] at hpos
        | cons y m =>
          simp only [List.cons_append, List.cons.injEq] at h2
          obtain ⟨hy, h2⟩ := h2
          subst hy
          rcases append_eq_append_cons _ _ _ _ _ h2 with ⟨m2, h3, _⟩ | ⟨m2, h3, h4⟩
          · have := callbackCount_split _ _ _ _ h3
            have := callbackCount_map_inner (callback sess w1).trace
            omega
          · rcases htail with h0 | ⟨C, hC, hC0⟩
            · have := callbackCount_split _ _ _ _ h4
              omega
            · rw [hC] at h4
              cases m2 with
              | nil => simp at h4
              | cons y2 m3 =>
                simp only [List.cons_append, List.cons.injEq] at h4
                obtain ⟨hy2, h4⟩ := h4
                subst hy2
                cases m3 with
                | nil => simp at h4
                | cons y3 m4 =>
                  simp only [List.cons_append, List.cons.injEq] at h4
                  obtain ⟨hy3, h4⟩ := h4
                  subst hy3
                  rcases append_eq_append_cons _ _ _ _ _ h4 with ⟨m5, h5, _⟩ | ⟨m5, _, h6⟩
                  · by_cases hz : callbackCount m4 = 0
                    · have hm4 := first_callback_background ss callback n _ _ m4 m5 s2 h5 hz
                      refine ⟨t1, sess, (callback sess w1).trace, ?_⟩
                      rw [h1, h3, hm4]
                    · obtain ⟨a, s, b, hab⟩ := ih _ _ _ m4 m5 s2 h5 (by omega)
                      refine ⟨t1 ++ Op.callback sess :: ((callback sess w1).trace.map Op.inner ++
                        Op.Rollback sess none :: Op.Sleep :: a), s, b, ?_⟩
                      rw [h1, h3, hab]
                      simp
                  · have := callbackCount_split _ _ _ _ h6
                    omega

theorem attempted_append (a b : List Op) : attempted (a ++ b) = attempted a ++ attempted b := by
  induction a with
  | nil => simp [attempted]
  | cons x t ih => cases x <;> simp [attempted, ih]

theorem attempted_map_inner (a : List Op) : attempted (a.map Op.inner) = [] := by
  induction a with
  | nil => simp [attempted]
  | cons x t ih => simp [attempted, ih]

theorem attempted_length (a : List Op) : (attempted a).length = callbackCount a := by
  induction a with
  | nil => simp [attempted, callbackCount]
  | cons x t ih => cases x <;> simp [attempted, callbackCount, ih]

theorem attempted_of_callbackCount (a : List Op) (h : callbackCount a = 0) :
    attempted a = [] := by
  apply List.eq_nil_of_length_eq_zero
  rw [attempted_length, h]

theorem closed_append (a b : List Op) : closed (a ++ b) = closed a ++ closed b := by
  induction a with
  | nil => simp [closed]
  | cons x t ih => cases x <;> simp [closed, ih]

theorem closed_map_inner (a : List Op) : closed (a.map Op.inner) = [] := by
  induction a with
  | nil => simp [closed]
  | cons x t ih => simp [closed, ih]

theorem closed_publishAll (ss : SqlStore σ) (sess : Nat) (w : World σ) (es : List Event) :
    closed (publishAll ss sess w es) = [] := by
  induction es with
  | nil => simp [publishAll, closed]
  | cons e t ih => simp [publishAll, closed, ih]

theorem startSession_closed (ss : SqlStore σ) (ctx : Context) (b : Bool) (w : World σ)
    (res : Except GoError Nat) (w1 : World σ) (t1 : List Op)
    (hs : startSession ss ctx b w = (res, w1, t1)) : closed t1 = [] := by
  rcases startSession_cases ss ctx b w res w1 t1 hs with ⟨_, _, h, _⟩ | ⟨_, _, h | ⟨r, h⟩, _⟩ <;>
    subst h <;> simp [closed]

/-- The shape of the trace of a call that obtained a session and returns: after
the callback either the call only finishes the attempt and closes the session,
or the trace of the retry, which returns too, stands between `Rollback`, `Sleep`
and the `Close` of the session. -/
theorem trace_shape_returned (ss : SqlStore σ) (fuel : Nat) (ctx : Context)
    (callback : dbTransactionFunc σ) (retry : Int) (w : World σ) (sess : Nat) (w1 : World σ)
    (t1 : List Op) (e : Err) (hs : startSession ss ctx true w = (.ok sess, w1, t1))
    (hret : (inTransactionWithRetryCtx ss (fuel + 1) ctx callback retry w).out = .returned e) :
    ∃ tail, (inTransactionWithRetryCtx ss (fuel + 1) ctx callback retry w).trace =
        t1 ++ Op.callback sess :: ((callback sess w1).trace.map Op.inner ++ tail) ∧
      ((callbackCount tail = 0 ∧ closed tail = [sess]) ∨
        (tail = Op.Rollback sess none :: Op.Sleep ::
            ((inTransactionWithRetryCtx ss fuel .Background callback (addInt retry 1)
              (callback sess w1).world).trace ++ [Op.Close sess]) ∧
          (inTransactionWithRetryCtx ss fuel .Background callback (addInt retry 1)
              (callback sess w1).world).out = .returned e)) := by
  cases hc : (callback sess w1).out with
  | diverged => simp [inTransactionWithRetryCtx, hs, hc] at hret
  | returned err =>
    cases hr : retryCondition err retry with
    | true =>
      cases hR : ss.Rollback sess (callback sess w1).world with
      | some rollErr =>
        exact ⟨[Op.Rollback sess (some rollErr), Op.Close sess],
          by simp [inTransactionWithRetryCtx, hs, hc, hr, hR], Or.inl ⟨rfl, rfl⟩⟩
      | none =>
        cases hn : (inTransactionWithRetryCtx ss fuel .Background callback (addInt retry 1)
            (callback sess w1).world).out with
        | diverged => simp [inTransactionWithRetryCtx, hs, hc, hr, hR, hn] at hret
        | returned e2 =>
          have he : e2 = e := by
            simpa [inTransactionWithRetryCtx, hs, hc, hr, hR, hn] using hret
          subst he
          exact ⟨_, by simp [inTransactionWithRetryCtx, hs, hc, hr, hR, hn],
            Or.inr ⟨rfl, rfl⟩⟩
    | false =>
      cases err with
      | some e1 =>
        cases hR : ss.Rollback sess (callback sess w1).world with
        | some rollErr =>
          exact ⟨[Op.Rollback sess (some rollErr), Op.Close sess],
            by simp [inTransactionWithRetryCtx, hs, hc, hr, hR], Or.inl ⟨rfl, rfl⟩⟩
        | none =>
          exact ⟨[Op.Rollback sess none, Op.Close sess],
            by simp [inTransactionWithRetryCtx, hs, hc, hr, hR], Or.inl ⟨rfl, rfl⟩⟩
      | none =>
        cases hC : ss.Commit sess (callback sess w1).world with
        | some e1 =>
          exact ⟨[Op.Commit sess (some e1), Op.Close sess],
            by simp [inTransactionWithRetryCtx, hs, hc, hr, hC], Or.inl ⟨rfl, rfl⟩⟩
        | none =>
          exact ⟨Op.Commit sess none :: (publishAll ss sess (callback sess w1).world
              ((callback sess w1).world.events sess) ++ [Op.Close sess]),
            by simp [inTransactionWithRetryCtx, hs, hc, hr, hC],
            Or.inl ⟨by simp [callbackCount, callbackCount_append, callbackCount_publishAll],
              by simp [closed, closed_append, closed_publishAll]⟩⟩

/-- A call that returns has closed the sessions of its attempts in the reverse
of the order in which it used them. -/
theorem closed_reverse (ss : SqlStore σ) (callback : dbTransactionFunc σ) (fuel : Nat) :
    ∀ (ctx : Context) (retry : Int) (w : World σ) (e : Err),
    (inTransactionWithRetryCtx ss fuel ctx callback retry w).out = .returned e →
    closed (inTransactionWithRetryCtx ss fuel ctx callback retry w).trace =
      (attempted (inTransactionWithRetryCtx ss fuel ctx callback retry w).trace).reverse := by
  induction fuel with
  | zero => intro ctx retry w e h; simp [inTransactionWithRetryCtx] at h
  | succ n ih =>
    intro ctx retry w e h
    rcases hst : startSession ss ctx true w with ⟨res, w1, t1⟩
    have ht := (startSession_trace ss _ true w _ w1 t1 hst).1
    have hcl := startSession_closed ss _ true w _ w1 t1 hst
    cases res with
    | error err =>
      simp only [inTransactionWithRetryCtx, hst]
      rw [hcl, attempted_of_callbackCount _ ht]
      rfl
    | ok sess =>
      obtain ⟨tail, hshape, htail⟩ :=
        trace_shape_returned ss n ctx callback retry w sess w1 t1 e hst h
      rw [hshape]
      rcases htail with ⟨h0, hc⟩ | ⟨htl, hn⟩
      · simp [closed_append, attempted_append, closed_map_inner, attempted_map_inner, hcl,
          attempted_of_callbackCount _ ht, attempted_of_callbackCount _ h0, hc, closed, attempted]
      · have := ih _ _ _ _ hn
        rw [htl]
        simp [closed_append, attempted_append, closed_map_inner, attempted_map_inner, hcl,
          attempted_of_callbackCount _ ht, closed, attempted, this]

/-- When the callback is invoked, no session has been closed yet. -/
theorem no_close_before_callback (ss : SqlStore σ) (callback : dbTransactionFunc σ)
    (fuel : Nat) : ∀ (ctx : Context) (retry : Int) (w : World σ) (pre post : List Op) (s : Nat),
    (inTransactionWithRetryCtx ss fuel ctx callback retry w).trace =
      pre ++ Op.callback s :: post →
    closed pre = [] := by
  induction fuel with
  | zero => intro ctx retry w pre post s h; simp [inTransactionWithRetryCtx] at h
  | succ n ih =>
    intro ctx retry w pre post s h
    rcases hst : startSession ss ctx true w with ⟨res, w1, t1⟩
    have ht := (startSession_trace ss _ true w _ w1 t1 hst).1
    have hcl := startSession_closed ss _ true w _ w1 t1 hst
    cases res with
    | error err =>
      simp only [inTransactionWithRetryCtx, hst] at h
      have := callbackCount_split _ _ _ _ h
      omega
    | ok sess =>
      obtain ⟨tail, hshape, htail⟩ := trace_shape ss n ctx callback retry w sess w1 t1 hst
      rw [hshape] at h
      rcases append_eq_append_cons _ _ _ _ _ h with ⟨m, h1, _⟩ | ⟨m, h1, h2⟩
      · have := callbackCount_split _ _ _ _ h1
        omega
      · cases m with
        | nil => rw [h1]; simpa using hcl
        | cons y m =>
          simp only [List.cons_append, List.cons.injEq] at h2
          obtain ⟨hy, h2⟩ := h2
          subst hy
          rcases append_eq_append_cons _ _ _ _ _ h2 with ⟨m2, h3, _⟩ | ⟨m2, h3, h4⟩
          · have := callbackCount_split _ _ _ _ h3
            have := callbackCount_map_inner (callback sess w1).trace
            omega
          · rcases htail with h0 | ⟨C, hC, hC0⟩
            · have := callbackCount_split _ _ _ _ h4
              omega
            · rw [hC] at h4
              cases m2 with
              | nil => simp at h4
              | cons y2 m3 =>
                simp only [List.cons_append, List.cons.injEq] at h4
                obtain ⟨hy2, h4⟩ := h4
                subst hy2
                cases m3 with
                | nil => simp at h4
                | cons y3 m4 =>
                  simp only [List.cons_append, List.cons.injEq] at h4
                  obtain ⟨hy3, h4⟩ := h4
                  subst hy3
                  rcases append_eq_append_cons _ _ _ _ _ h4 with ⟨m5, h5, _⟩ | ⟨m5, _, h6⟩
                  · have hm4 := ih _ _ _ m4 m5 s h5
                    rw [h1, h3]
                    simp [closed_append, closed_map_inner, hcl, closed, hm4]
                  · have := callbackCount_split _ _ _ _ h6
                    omega

/-- The sessions of the attempts of a call on the background context were
created by it, one after the other: their pointers lie beyond the heap the call
started from and increase. -/
theorem attempted_increasing (ss : SqlStore σ) (callback : dbTransactionFunc σ)
    (hmono : ∀ s w, w.sessions.length ≤ (callback s w).world.sessions.length)
    (fuel : Nat) : ∀ (retry : Int) (w : World σ),
    (∀ s ∈ attempted (inTransactionWithRetryCtx ss fuel .Background callback retry w).trace,
      w.sessions.length ≤ s) ∧
    (attempted (inTransactionWithRetryCtx ss fuel .Background callback retry w).trace).Pairwise
      (· < ·) := by
  induction fuel with
  | zero => intro retry w; simp [inTransactionWithRetryCtx, attempted]
  | succ n ih =>
    intro retry w
    rcases hst : startSession ss .Background true w with ⟨res, w1, t1⟩
    have ht := (startSession_trace ss _ true w _ w1 t1 hst).1
    cases res with
    | error err =>
      simp only [inTransactionWithRetryCtx, hst]
      rw [attempted_of_callbackCount _ ht]
      simp
    | ok sess =>
      obtain ⟨hw1, _, hlen⟩ := startSession_background ss w _ w1 t1 hst
      have hsess := hlen sess rfl
      have hm := hmono sess w1
      have hl1 : w1.sessions.length = w.sessions.length + 1 := by rw [hw1]; simp
      obtain ⟨tail, hshape, htail⟩ := trace_shape ss n .Background callback retry w sess w1 t1 hst
      rw [hshape]
      rcases htail with h0 | ⟨C, hC, hC0⟩
      · simp [attempted_append, attempted_map_inner, attempted_of_callbackCount _ ht,
          attempted_of_callbackCount _ h0, attempted, hsess]
      · obtain ⟨hb, hp⟩ := ih (addInt retry 1) (callback sess w1).world
        rw [hC]
        simp only [attempted_append, attempted_map_inner, attempted_of_callbackCount _ ht,
          attempted_of_callbackCount _ hC0, attempted, List.nil_append, List.append_nil]
        refine ⟨?_, ?_⟩
        · intro s hs
          rcases List.mem_cons.mp hs with h | h
          · omega
          · have := hb s h
            omega
        · refine List.pairwise_cons.mpr ⟨?_, hp⟩
          intro s hs
          have := hb s hs
          omega

/-- With a result at hand the callbacks of `DeleteDataSourceById` and
`DeleteDataSourceByName` store the number of affected rows and return the error
of `Exec`, `nil` on success. -/
theorem deleteDataSource_with_result (result : SqlResult) (err : Err)
    (cmd : DeleteDataSourceByIdCommand) (cmd2 : DeleteDataSourceByNameCommand) :
    DeleteDataSourceByIdCallback (fun _ _ => (some result, err)) cmd =
      .done (err, { cmd with DeletedDatasourcesCount := result.RowsAffected.1 }) ∧
    DeleteDataSourceByNameCallback (fun _ _ => (some result, err)) cmd2 =
      .done (err, { cmd2 with DeletedDatasourcesCount := result.RowsAffected.1 }) :=
  ⟨rfl, rfl⟩

theorem mulInt_second (stl : Int) (h0 : 0 < stl) (h1 : stl ≤ 9223372036) :
    mulInt Second stl = 1000000000 * stl := by
  unfold mulInt Second
  omega

theorem add_seconds_unix (t : Time) (stl : Int) (h0 : 0 ≤ t.nsec) (h1 : t.nsec < 1000000000) :
    (t.Add (1000000000 * stl)).Unix = t.Unix + stl := by
  unfold Time.Add Time.Unix
  simp only
  omega

theorem AddApiKeyInsert_inserted (Insert : ApiKey → ApiKey × Err) (cmd : AddApiKeyCommand)
    (updated : Time) (expires : Option Int) :
    (AddApiKeyInsert Insert cmd updated expires).inserted =
      [{ Id := 0, OrgId := cmd.OrgId, Name := cmd.Name, Role := cmd.Role, Key := cmd.Key,
         Created := updated, Updated := updated, Expires := expires }] := by
  unfold AddApiKeyInsert
  simp only
  split <;> rfl

/-! ## The claims -/

/-- C1 (the code departs from the claim): a callback that always returns
`sqlite3.Error{Code: ErrBusy}`, with `Begin` and `Rollback` succeeding, is not
stopped after 6 attempts.  Whatever number `fuel` of nested calls is allowed,
`inTransactionWithRetryCtx(ctx, callback, 0)` has invoked the callback `fuel`
times and has not returned. -/
theorem C1_busy_retried_without_bound (fuel : Nat) :
    (inTransactionWithRetryCtx (okStore Nat) fuel .Background
        (constCallback (some busyErr)) 0 emptyWorld).out = .diverged ∧
    callbackCount (inTransactionWithRetryCtx (okStore Nat) fuel .Background
        (constCallback (some busyErr)) 0 emptyWorld).trace = fuel :=
  busy_never_returns (okStore Nat) (fun _ _ => rfl) (fun _ _ => rfl)
    (constCallback (some busyErr)) (fun _ _ => ⟨0, rfl⟩) fuel .Background 0 emptyWorld

/-- C2 (the code departs from the claim): with the counter at or above the
ceiling, whatever its value `retry`, a callback that returns
`sqlite3.Error{Code: ErrBusy}` is retried.  Here the callback fails once with
`ErrBusy` and then succeeds: it runs twice, on two sessions, and the call returns
`nil` after the commit of the second attempt instead of the callback's error. -/
theorem C2_busy_retried_above_ceiling (retry : Int) :
    inTransactionWithRetryCtx (okStore Nat) 2 .Background (failFirst 1 busyErr) retry
        emptyWorld =
      { out := .returned none,
        world := { sessions := [{ events := [], dialect := 0 }, { events := [], dialect := 0 }],
                   user := 2 },
        trace := [Op.NewSession 0, Op.Begin 0 none, Op.callback 0, Op.Rollback 0 none, Op.Sleep,
                  Op.NewSession 1, Op.Begin 1 none, Op.callback 1, Op.Commit 1 none,
                  Op.Close 1, Op.Close 0] } := by
  simp [inTransactionWithRetryCtx, startSession, Context.Value, okStore, failFirst, emptyWorld,
    busyErr, retryCondition, assertSqlite3Error, ErrBusy, ErrLocked, publishAll, World.events]

/-- C3, counterexample: the context carries a bound session that already holds
the pending event 7 (recorded by an earlier call on the same session); the
callback records the event 8 and returns `nil`, and `Commit` succeeds.  The
events passed to `bus.Publish` are 7 and 8, not the one event recorded during
that callback. -/
theorem C3_bound_session_pending_events_counterexample :
    published (inTransactionWithRetryCtx (okStore Nat) 1 (.WithValue .Background 0)
        (recordThen [8] none) 0 { sessions := [{ events := [7], dialect := 0 }], user := 0 }).trace
      = [7, 8] := by
  decide

/-- C3 (amended): for every callback that returns no error and records the
events `evs` on the session, and whose `Commit` succeeds, the call returns `nil`
and the events passed to `bus.Publish` are the pending events of the session:
those it already held before the callback, then `evs`, each once and in that
order.  When the session is created by the call (the context carries no bound
session) they are exactly `evs`.  Every `Publish` comes after the successful
`Commit`: nothing is published before it. -/
theorem C3_publishes_pending_events_after_commit (ss : SqlStore σ) (fuel : Nat) (ctx : Context)
    (callback : dbTransactionFunc σ) (retry : Int) (w : World σ) (sess : Nat) (w1 : World σ)
    (t1 : List Op) (evs : List Event)
    (hs : startSession ss ctx true w = (.ok sess, w1, t1))
    (hcb : (callback sess w1).out = .returned none)
    (hev : (callback sess w1).world.events sess = w1.events sess ++ evs)
    (hC : ss.Commit sess (callback sess w1).world = none) :
    (inTransactionWithRetryCtx ss (fuel + 1) ctx callback retry w).out = .returned none ∧
    published (inTransactionWithRetryCtx ss (fuel + 1) ctx callback retry w).trace =
      w1.events sess ++ evs ∧
    (ctx.Value = none →
      published (inTransactionWithRetryCtx ss (fuel + 1) ctx callback retry w).trace = evs) ∧
    ∃ pre post, (inTransactionWithRetryCtx ss (fuel + 1) ctx callback retry w).trace =
        pre ++ Op.Commit sess none :: post ∧
      published pre = [] ∧ published post = w1.events sess ++ evs := by
  have ht := (startSession_trace ss ctx true w _ w1 t1 hs).2
  have hrun := run_commit ss fuel ctx callback retry w sess w1 t1 hs hcb hC
  have hp : published (inTransactionWithRetryCtx ss (fuel + 1) ctx callback retry w).trace =
      w1.events sess ++ evs := by
    rw [hrun]
    simp [published_append, published_map_inner, published_publishAll, ht, published, hev]
  refine ⟨by rw [hrun], hp, ?_, t1 ++ [Op.callback sess] ++ (callback sess w1).trace.map Op.inner,
    publishAll ss sess (callback sess w1).world (w1.events sess ++ evs) ++ [Op.Close sess],
    ?_, ?_, ?_⟩
  · intro hctx
    rw [hp, startSession_events_new ss ctx true w sess w1 t1 hs hctx, List.nil_append]
  · rw [hrun, hev]
    simp
  · simp [published_append, published_map_inner, ht, published]
  · simp [published_append, published_publishAll, published]

/-- C3, witness: a new session, a callback that records 1 then 2. -/
theorem C3_publishes_pending_events_after_commit_witness :
    (inTransactionWithRetryCtx (okStore Nat) (0 + 1) .Background (recordThen [1, 2] none) 0
        emptyWorld).out = .returned none ∧
    published (inTransactionWithRetryCtx (okStore Nat) (0 + 1) .Background
        (recordThen [1, 2] none) 0 emptyWorld).trace =
      ({ sessions := [{ events := [], dialect := 0 }], user := 0 } : World Nat).events 0 ++
        [1, 2] ∧
    (Context.Background.Value = none →
      published (inTransactionWithRetryCtx (okStore Nat) (0 + 1) .Background
        (recordThen [1, 2] none) 0 emptyWorld).trace = [1, 2]) ∧
    ∃ pre post, (inTransactionWithRetryCtx (okStore Nat) (0 + 1) .Background
        (recordThen [1, 2] none) 0 emptyWorld).trace = pre ++ Op.Commit 0 none :: post ∧
      published pre = [] ∧
      published post =
        ({ sessions := [{ events := [], dialect := 0 }], user := 0 } : World Nat).events 0 ++
          [1, 2] :=
  C3_publishes_pending_events_after_commit (okStore Nat) 0 .Background (recordThen [1, 2] none)
    0 emptyWorld 0 { sessions := [{ events := [], dialect := 0 }], user := 0 }
    [Op.NewSession 0, Op.Begin 0 none] [1, 2] rfl rfl rfl rfl

/-- C4, counterexample: the function given to `InTransaction` makes a nested
call on the context that carries the session 0.  The first attempt of the nested
call records the event 10 on the session 0 and returns `ErrLocked`; `Rollback` is
issued on the session 0 and the retry, on the new session 1, records 11 and
commits.  The function then returns `nil`, and the enclosing call commits the
session 0 and passes the event 10, recorded during the attempt that failed and
was rolled back, to `bus.Publish`. -/
theorem C4_failed_attempt_event_published_counterexample :
    (InTransaction (okStore Nat) 1 .Background
        (nestedThen (okStore Nat) 2 (recordFailFirst 1 lockedErr) none) emptyWorld).trace =
      [Op.NewSession 0, Op.Begin 0 none, Op.callback 0,
       Op.inner (Op.callback 0), Op.inner (Op.Rollback 0 none), Op.inner Op.Sleep,
       Op.inner (Op.NewSession 1), Op.inner (Op.Begin 1 none), Op.inner (Op.callback 1),
       Op.inner (Op.Commit 1 none), Op.inner (Op.Publish 1 11 none),
       Op.inner (Op.Close 1), Op.inner (Op.Close 0),
       Op.Commit 0 none, Op.Publish 0 10 none, Op.Close 0] ∧
    (recordFailFirst 1 lockedErr 0
      { sessions := [{ events := [], dialect := 0 }], user := 0 }).out =
        .returned (some lockedErr) ∧
    (recordFailFirst 1 lockedErr 0
      { sessions := [{ events := [], dialect := 0 }], user := 0 }).world.events 0 = [10] ∧
    publishedDeep (InTransaction (okStore Nat) 1 .Background
        (nestedThen (okStore Nat) 2 (recordFailFirst 1 lockedErr) none) emptyWorld).trace =
      [11, 10] := by
  decide

/-- C4 (amended): for every callback that returns an error `e`, whatever it
recorded before, the call issues `Rollback` on the session of the attempt right
after the callback, and the call itself passes no event of that session to
`bus.Publish`: when the error is retried and `Rollback` succeeds it publishes
what the retry publishes, which is a call on `context.Background()` that works on
sessions of its own, and otherwise it publishes nothing.  What other calls on
the same session do, a nested call made by the callback or the call that owns a
context-bound session, is not part of the statement.  `hptr` and `hmono` say
that the heap is a Go heap: the pointer bound to the context points to a
session, and a callback does not free sessions. -/
theorem C4_error_rolls_back_and_call_publishes_nothing_of_the_session (ss : SqlStore σ) (fuel : Nat)
    (ctx : Context) (callback : dbTransactionFunc σ) (retry : Int) (w : World σ) (sess : Nat)
    (w1 : World σ) (t1 : List Op) (e : GoError)
    (hptr : ∀ s, ctx.Value = some s → s < w.sessions.length)
    (hmono : ∀ s w, w.sessions.length ≤ (callback s w).world.sessions.length)
    (hs : startSession ss ctx true w = (.ok sess, w1, t1))
    (hcb : (callback sess w1).out = .returned (some e)) :
    (∃ rest, (inTransactionWithRetryCtx ss (fuel + 1) ctx callback retry w).trace =
      t1 ++ [Op.callback sess] ++ (callback sess w1).trace.map Op.inner ++
        [Op.Rollback sess (ss.Rollback sess (callback sess w1).world)] ++ rest) ∧
    (∀ e1 res, Op.Publish sess e1 res ∉
      (inTransactionWithRetryCtx ss (fuel + 1) ctx callback retry w).trace) ∧
    (retryCondition (some e) retry = true → ss.Rollback sess (callback sess w1).world = none →
      published (inTransactionWithRetryCtx ss (fuel + 1) ctx callback retry w).trace =
        published (inTransactionWithRetryCtx ss fuel .Background callback (addInt retry 1)
          (callback sess w1).world).trace) ∧
    (retryCondition (some e) retry = false ∨ ss.Rollback sess (callback sess w1).world ≠ none →
      published (inTransactionWithRetryCtx ss (fuel + 1) ctx callback retry w).trace = []) := by
  have ht := (startSession_trace ss ctx true w _ w1 t1 hs).2
  refine ⟨trace_prefix_error ss fuel ctx callback retry w sess w1 t1 e hs hcb, ?_, ?_, ?_⟩
  · intro e1 res hmem
    rcases publish_mem_step ss fuel ctx callback retry w sess w1 t1 hs sess e1 res hmem with
      ⟨_, h⟩ | h
    · rw [hcb] at h
      cases h
    · have h1 := publish_fresh ss callback hmono sess e1 res fuel _ _ h
      have h2 := (startSession_heap ss ctx true w sess w1 t1 hs hptr).2
      have h3 := hmono sess w1
      omega
  · intro hr hR
    simp only [inTransactionWithRetryCtx, hs, hcb, hr, hR, if_true]
    split <;> simp [published_append, published_map_inner, ht, published]
  · intro h
    cases hr : retryCondition (some e) retry with
    | false =>
      simp only [inTransactionWithRetryCtx, hs, hcb, hr, Bool.false_eq_true, if_false]
      split <;> simp [published_append, published_map_inner, ht, published]
    | true =>
      rcases h with h | h
      · rw [hr] at h
        cases h
      · cases hR : ss.Rollback sess (callback sess w1).world with
        | none => exact absurd hR h
        | some rollErr =>
          simp only [inTransactionWithRetryCtx, hs, hcb, hr, hR, if_true]
          simp [published_append, published_map_inner, ht, published]

/-- C4, witness: the first attempt records the event 10 and fails with
`ErrLocked`; the retry records 11 on the session 1 and succeeds.  `Rollback` is
issued on the session 0, the call publishes 11 alone, and 10 stays pending on
the session 0. -/
theorem C4_error_rolls_back_and_call_publishes_nothing_of_the_session_witness :
    (∃ rest, (inTransactionWithRetryCtx (okStore Nat) (1 + 1) .Background
        (recordFailFirst 1 lockedErr) 0 emptyWorld).trace =
      [Op.NewSession 0, Op.Begin 0 none] ++ [Op.callback 0] ++
        (recordFailFirst 1 lockedErr 0
          { sessions := [{ events := [], dialect := 0 }], user := 0 }).trace.map Op.inner ++
        [Op.Rollback 0 ((okStore Nat).Rollback 0 (recordFailFirst 1 lockedErr 0
          { sessions := [{ events := [], dialect := 0 }], user := 0 }).world)] ++ rest) ∧
    (∀ e1 res, Op.Publish 0 e1 res ∉
      (inTransactionWithRetryCtx (okStore Nat) (1 + 1) .Background
        (recordFailFirst 1 lockedErr) 0 emptyWorld).trace) ∧
    published (inTransactionWithRetryCtx (okStore Nat) (1 + 1) .Background
        (recordFailFirst 1 lockedErr) 0 emptyWorld).trace =
      published (inTransactionWithRetryCtx (okStore Nat) 1 .Background
        (recordFailFirst 1 lockedErr) (addInt 0 1)
        (recordFailFirst 1 lockedErr 0
          { sessions := [{ events := [], dialect := 0 }], user := 0 }).world).trace ∧
    (recordFailFirst 1 lockedErr 0
      { sessions := [{ events := [], dialect := 0 }], user := 0 }).world.events 0 = [10] ∧
    published (inTransactionWithRetryCtx (okStore Nat) (1 + 1) .Background
        (recordFailFirst 1 lockedErr) 0 emptyWorld).trace = [11] :=
  have h := C4_error_rolls_back_and_call_publishes_nothing_of_the_session (okStore Nat) 1
    .Background (recordFailFirst 1 lockedErr) 0 emptyWorld 0
    { sessions := [{ events := [], dialect := 0 }], user := 0 }
    [Op.NewSession 0, Op.Begin 0 none] lockedErr
    (fun _ h => by simp [Context.Value] at h)
    (fun s w => by simp [recordFailFirst, publishAfterCommit, List.length_modify]) rfl rfl
  ⟨h.1, h.2.1, h.2.2.1 (by decide) rfl, by decide, by decide⟩

/-- C5: for every `N < 5` and every callback that returns a lock-contention
error (`ErrLocked` or `ErrBusy`) on its first `N` invocations and `nil` on
invocation `N + 1`, with `Begin`, `Rollback` and `Commit` succeeding,
`inTransactionWithRetryCtx(ctx, callback, 0)` returns `nil` and has invoked the
callback exactly `N + 1` times, as soon as `N + 1` nested calls are allowed.
The number of past invocations is read from the callback's own state by `k`. -/
theorem C5_succeeds_after_lock_failures (ss : SqlStore σ) (callback : dbTransactionFunc σ)
    (k : σ → Nat) (N : Nat)
    (ctx : Context) (w : World σ) (fuel : Nat)
    (hN : N < 5)
    (hB : ∀ s w, ss.Begin s w = none) (hR : ∀ s w, ss.Rollback s w = none)
    (hC : ∀ s w, ss.Commit s w = none)
    (hk : ∀ s w, k (callback s w).world.user = k w.user + 1)
    (h0 : k w.user = 0)
    (hfail : ∀ s w, k w.user < N →
      ∃ e, (callback s w).out = .returned e ∧ isLockContention e = true)
    (hok : ∀ s w, k w.user = N → (callback s w).out = .returned none)
    (hfuel : N < fuel) :
    (inTransactionWithRetryCtx ss fuel ctx callback 0 w).out = .returned none ∧
    callbackCount (inTransactionWithRetryCtx ss fuel ctx callback 0 w).trace = N + 1 := by
  have h := retry_chain ss hB hR hC callback k N hN hk hfail hok N 0 ctx w fuel (by omega) h0 hfuel
  simpa using h

/-- C5, witness: three failures with `ErrLocked`, then success. -/
theorem C5_succeeds_after_lock_failures_witness :
    (inTransactionWithRetryCtx (okStore Nat) 5 .Background (failFirst 3 lockedErr) 0
        emptyWorld).out = .returned none ∧
    callbackCount (inTransactionWithRetryCtx (okStore Nat) 5 .Background (failFirst 3 lockedErr) 0
        emptyWorld).trace = 3 + 1 :=
  C5_succeeds_after_lock_failures (okStore Nat) (failFirst 3 lockedErr) (fun n => n) 3 .Background emptyWorld 5
    (by decide) (fun _ _ => rfl) (fun _ _ => rfl) (fun _ _ => rfl) (fun _ _ => rfl) rfl
    (fun _ w h => ⟨some lockedErr, by simp [failFirst, h], by decide⟩)
    (fun _ w h => by simp [failFirst, h]) (by decide)

/-- C6: for every callback error `e` that is not a lock-contention error (a
`sqlite3.Error` with another code, or an error of another type) and every
value of the retry counter, the call invokes the callback exactly once, issues
`Rollback` and closes the session, and when `Rollback` succeeds it returns `e`
itself. -/
theorem C6_other_error_not_retried (ss : SqlStore σ) (fuel : Nat) (ctx : Context)
    (callback : dbTransactionFunc σ) (retry : Int) (w : World σ) (sess : Nat) (w1 : World σ)
    (t1 : List Op) (e : GoError)
    (hs : startSession ss ctx true w = (.ok sess, w1, t1))
    (hcb : (callback sess w1).out = .returned (some e))
    (hnl : isLockContention (some e) = false) :
    (inTransactionWithRetryCtx ss (fuel + 1) ctx callback retry w).trace =
      t1 ++ [Op.callback sess] ++ (callback sess w1).trace.map Op.inner ++
        [Op.Rollback sess (ss.Rollback sess (callback sess w1).world), Op.Close sess] ∧
    callbackCount (inTransactionWithRetryCtx ss (fuel + 1) ctx callback retry w).trace = 1 ∧
    (ss.Rollback sess (callback sess w1).world = none →
      (inTransactionWithRetryCtx ss (fuel + 1) ctx callback retry w).out = .returned (some e)) := by
  have ht := (startSession_trace ss ctx true w _ w1 t1 hs).1
  have hr := retryCondition_of_not_lock (some e) retry hnl
  simp only [inTransactionWithRetryCtx, hs, hcb, hr]
  cases hR : ss.Rollback sess (callback sess w1).world with
  | none => simp [callbackCount_append, callbackCount_map_inner, ht, callbackCount]
  | some rollErr => simp [callbackCount_append, callbackCount_map_inner, ht, callbackCount]

/-- C6, witness: a business error with the counter at 7. -/
theorem C6_other_error_not_retried_witness :
    (inTransactionWithRetryCtx (okStore Nat) (0 + 1) .Background
        (constCallback (some (.other 3))) 7 emptyWorld).trace =
      [Op.NewSession 0, Op.Begin 0 none] ++ [Op.callback 0] ++
        (constCallback (some (.other 3)) 0
          ({ sessions := [{ events := [], dialect := 0 }], user := 0 } : World Nat)).trace.map
          Op.inner ++
        [Op.Rollback 0 ((okStore Nat).Rollback 0 (constCallback (some (.other 3)) 0
          ({ sessions := [{ events := [], dialect := 0 }], user := 0 } : World Nat)).world),
         Op.Close 0] ∧
    callbackCount (inTransactionWithRetryCtx (okStore Nat) (0 + 1) .Background
        (constCallback (some (.other 3))) 7 emptyWorld).trace = 1 ∧
    ((okStore Nat).Rollback 0 (constCallback (some (.other 3)) 0
        ({ sessions := [{ events := [], dialect := 0 }], user := 0 } : World Nat)).world = none →
      (inTransactionWithRetryCtx (okStore Nat) (0 + 1) .Background
        (constCallback (some (.other 3))) 7 emptyWorld).out = .returned (some (.other 3))) :=
  C6_other_error_not_retried (okStore Nat) 0 .Background (constCallback (some (.other 3))) 7
    emptyWorld 0 { sessions := [{ events := [], dialect := 0 }], user := 0 }
    [Op.NewSession 0, Op.Begin 0 none] (.other 3) rfl rfl rfl

/-- C7, counterexample: the function given to `InTransaction` makes the nested
call `WithTransactionalDbSession` on the context that carries the session 0; the
nested callback records the event 1 and succeeds; the outer function then
returns the error `other 9`.  The nested call issues `Commit` on the shared
session 0, publishes the event and closes the session; the `Rollback` of the
outer call comes after that `Commit`. -/
theorem C7_nested_call_commits_counterexample :
    InTransaction (okStore Nat) 1 .Background
        (nestedThen (okStore Nat) 1 (recordThen [1] none) (some (.other 9))) emptyWorld =
      { out := .returned (some (.other 9)),
        world := { sessions := [{ events := [1], dialect := 0 }], user := 0 },
        trace := [Op.NewSession 0, Op.Begin 0 none, Op.callback 0,
                  Op.inner (Op.callback 0), Op.inner (Op.Commit 0 none),
                  Op.inner (Op.Publish 0 1 none), Op.inner (Op.Close 0),
                  Op.Rollback 0 none, Op.Close 0] } := by
  rfl

/-- C7 (amended): when the function given to `InTransaction` makes a nested
transactional call on the context that carries the bound session, the nested
call runs on that session: it creates no session and issues no `Begin`.  When
its callback succeeds and `Commit` succeeds, the nested call itself issues
`Commit` on the shared session, publishes the pending events and closes the
session; if the outer function then returns an error `e` that is not a
lock-contention error, `Rollback` is issued on the session after that `Commit`,
and the session is closed a second time. -/
theorem C7_nested_call_commits_before_outer_rollback (ss : SqlStore σ) (fuel k : Nat)
    (ctx : Context)
    (callback : dbTransactionFunc σ) (e : GoError) (w : World σ) (sess : Nat) (w1 : World σ)
    (t1 : List Op)
    (hs : startSession ss ctx true w = (.ok sess, w1, t1))
    (hcb : (callback sess w1).out = .returned none)
    (hC : ss.Commit sess (callback sess w1).world = none)
    (he : isLockContention (some e) = false) :
    (InTransaction ss (fuel + 1) ctx (nestedThen ss (k + 1) callback (some e)) w).trace =
      t1 ++ [Op.callback sess, Op.inner (Op.callback sess)] ++
        ((callback sess w1).trace.map Op.inner).map Op.inner ++
        [Op.inner (Op.Commit sess none)] ++
        (publishAll ss sess (callback sess w1).world
          ((callback sess w1).world.events sess)).map Op.inner ++
        [Op.inner (Op.Close sess),
         Op.Rollback sess (ss.Rollback sess (callback sess w1).world), Op.Close sess] := by
  have hn := run_commit ss k (Context.WithValue ctx sess) callback 0 w1 sess w1 []
    (startSession_bound ss ctx sess true w1) hcb hC
  have hr := retryCondition_of_not_lock (some e) 0 he
  have hf : nestedThen ss (k + 1) callback (some e) (Context.WithValue ctx sess) w1 =
      { out := .returned (some e), world := (callback sess w1).world,
        trace := [Op.callback sess] ++ (callback sess w1).trace.map Op.inner ++
          [Op.Commit sess none] ++
          publishAll ss sess (callback sess w1).world ((callback sess w1).world.events sess) ++
          [Op.Close sess] } := by
    simp only [nestedThen, WithTransactionalDbSession, hn, List.nil_append]
  simp only [InTransaction, inTransactionWithRetryCtx, hs, hf, hr, Bool.false_eq_true, if_false]
  cases ss.Rollback sess (callback sess w1).world <;> simp

/-- C7, witness: the nested callback records the event 1, the outer function
fails with `other 9`. -/
theorem C7_nested_call_commits_before_outer_rollback_witness :
    (InTransaction (okStore Nat) (0 + 1) .Background
        (nestedThen (okStore Nat) (0 + 1) (recordThen [1] none) (some (.other 9))) emptyWorld).trace =
      [Op.NewSession 0, Op.Begin 0 none] ++ [Op.callback 0, Op.inner (Op.callback 0)] ++
        ((recordThen [1] none 0
          ({ sessions := [{ events := [], dialect := 0 }], user := 0 } : World Nat)).trace.map
            Op.inner).map Op.inner ++
        [Op.inner (Op.Commit 0 none)] ++
        (publishAll (okStore Nat) 0
          (recordThen [1] none 0
            ({ sessions := [{ events := [], dialect := 0 }], user := 0 } : World Nat)).world
          ((recordThen [1] none 0
            ({ sessions := [{ events := [], dialect := 0 }], user := 0 } : World Nat)).world.events
              0)).map Op.inner ++
        [Op.inner (Op.Close 0),
         Op.Rollback 0 ((okStore Nat).Rollback 0 (recordThen [1] none 0
           ({ sessions := [{ events := [], dialect := 0 }], user := 0 } : World Nat)).world),
         Op.Close 0] :=
  C7_nested_call_commits_before_outer_rollback (okStore Nat) 0 0 .Background
    (recordThen [1] none) (.other 9) emptyWorld 0
    { sessions := [{ events := [], dialect := 0 }], user := 0 }
    [Op.NewSession 0, Op.Begin 0 none] rfl rfl rfl rfl

/-- C8, counterexample: the function given to `InTransaction` makes one nested
call on the context-bound session 0, whose callback records the event 1, and
then returns `nil`.  The nested call commits the session and publishes the
event 1; the event stays in the pending list, and the outer call commits the
same session and publishes the event 1 again. -/
theorem C8_event_published_twice_counterexample :
    (InTransaction (okStore Nat) 1 .Background
        (nestedThen (okStore Nat) 1 (recordThen [1] none) none) emptyWorld).trace =
      [Op.NewSession 0, Op.Begin 0 none, Op.callback 0,
       Op.inner (Op.callback 0), Op.inner (Op.Commit 0 none),
       Op.inner (Op.Publish 0 1 none), Op.inner (Op.Close 0),
       Op.Commit 0 none, Op.Publish 0 1 none, Op.Close 0] ∧
    publishedDeep (InTransaction (okStore Nat) 1 .Background
        (nestedThen (okStore Nat) 1 (recordThen [1] none) none) emptyWorld).trace = [1, 1] := by
  decide

/-- C8 (amended): publishing does not empty the pending list.  A call whose
callback returns `nil` and whose `Commit` succeeds passes every pending event of
the session to `bus.Publish` once, in order, and leaves the world as the
callback left it; a later call that commits the same session, reached through
the context, publishes these events again, followed by the events `evs2`
recorded since. -/
theorem C8_pending_events_published_by_every_commit (ss : SqlStore σ) (fuel fuel2 : Nat)
    (ctx ctx2 : Context)
    (callback callback2 : dbTransactionFunc σ) (retry retry2 : Int) (w : World σ) (sess : Nat)
    (w1 : World σ) (t1 : List Op) (evs2 : List Event)
    (hs : startSession ss ctx true w = (.ok sess, w1, t1))
    (hcb : (callback sess w1).out = .returned none)
    (hC : ss.Commit sess (callback sess w1).world = none)
    (hctx2 : ctx2.Value = some sess)
    (hcb2 : (callback2 sess (callback sess w1).world).out = .returned none)
    (hev2 : (callback2 sess (callback sess w1).world).world.events sess =
      (callback sess w1).world.events sess ++ evs2)
    (hC2 : ss.Commit sess (callback2 sess (callback sess w1).world).world = none) :
    (inTransactionWithRetryCtx ss (fuel + 1) ctx callback retry w).world =
      (callback sess w1).world ∧
    published (inTransactionWithRetryCtx ss (fuel + 1) ctx callback retry w).trace =
      (callback sess w1).world.events sess ∧
    published (inTransactionWithRetryCtx ss (fuel2 + 1) ctx2 callback2 retry2
        (inTransactionWithRetryCtx ss (fuel + 1) ctx callback retry w).world).trace =
      published (inTransactionWithRetryCtx ss (fuel + 1) ctx callback retry w).trace ++ evs2 := by
  have ht := (startSession_trace ss ctx true w _ w1 t1 hs).2
  have h1 := run_commit ss fuel ctx callback retry w sess w1 t1 hs hcb hC
  have hs2 : startSession ss ctx2 true (callback sess w1).world =
      (.ok sess, (callback sess w1).world, []) := by
    simp [startSession, hctx2]
  have h2 := run_commit ss fuel2 ctx2 callback2 retry2 (callback sess w1).world sess
    (callback sess w1).world [] hs2 hcb2 hC2
  rw [h1]
  simp only
  rw [h2]
  simp [published_append, published_map_inner, published_publishAll, ht, published, hev2]

/-- C8, witness: two calls on the bound session 0; the first records the
event 1, the second records nothing and publishes the event 1 again. -/
theorem C8_pending_events_published_by_every_commit_witness :
    (inTransactionWithRetryCtx (okStore Nat) (0 + 1) (.WithValue .Background 0)
        (recordThen [1] none) 0 { sessions := [{ events := [], dialect := 0 }], user := 0 }).world =
      (recordThen [1] none 0
        ({ sessions := [{ events := [], dialect := 0 }], user := 0 } : World Nat)).world ∧
    published (inTransactionWithRetryCtx (okStore Nat) (0 + 1) (.WithValue .Background 0)
        (recordThen [1] none) 0 { sessions := [{ events := [], dialect := 0 }], user := 0 }).trace =
      (recordThen [1] none 0
        ({ sessions := [{ events := [], dialect := 0 }], user := 0 } : World Nat)).world.events 0 ∧
    published (inTransactionWithRetryCtx (okStore Nat) (0 + 1) (.WithValue .Background 0)
        (recordThen [] none) 0
        (inTransactionWithRetryCtx (okStore Nat) (0 + 1) (.WithValue .Background 0)
          (recordThen [1] none) 0
          { sessions := [{ events := [], dialect := 0 }], user := 0 }).world).trace =
      published (inTransactionWithRetryCtx (okStore Nat) (0 + 1) (.WithValue .Background 0)
        (recordThen [1] none) 0
        { sessions := [{ events := [], dialect := 0 }], user := 0 }).trace ++ [] :=
  C8_pending_events_published_by_every_commit (okStore Nat) 0 0 (.WithValue .Background 0)
    (.WithValue .Background 0) (recordThen [1] none) (recordThen [] none) 0 0
    { sessions := [{ events := [], dialect := 0 }], user := 0 } 0
    { sessions := [{ events := [], dialect := 0 }], user := 0 } [] [] rfl rfl rfl rfl rfl rfl rfl

/-- C9: the context that `InTransaction` passes to its function carries the
session `sess` of the transaction; `startSession` on that context answers `sess`
itself for both values of `beginTran`, with the heap unchanged and no operation
issued (no new session, no `Begin`); and a nested `inTransactionWithRetryCtx` on
it whose callback returns an error runs that callback on `sess` and issues
`Rollback` on `sess`, the session of the outer transaction. -/
theorem C9_nested_call_reuses_session_and_rolls_it_back (ss : SqlStore σ) (fuel k : Nat)
    (ctx : Context)
    (nested : dbTransactionFunc σ) (retry : Int) (w : World σ) (sess : Nat) (w1 : World σ)
    (t1 : List Op) (e : GoError)
    (hs : startSession ss ctx true w = (.ok sess, w1, t1))
    (hcb : (nested sess w1).out = .returned (some e)) :
    (Context.WithValue ctx sess).Value = some sess ∧
    (∀ b w2, startSession ss (Context.WithValue ctx sess) b w2 = (.ok sess, w2, [])) ∧
    ∃ rest, (InTransaction ss (fuel + 1) ctx
        (fun c w2 => inTransactionWithRetryCtx ss (k + 1) c nested retry w2) w).trace =
      t1 ++ [Op.callback sess, Op.inner (Op.callback sess)] ++
        ((nested sess w1).trace.map Op.inner).map Op.inner ++
        [Op.inner (Op.Rollback sess (ss.Rollback sess (nested sess w1).world))] ++ rest := by
  refine ⟨rfl, fun b w2 => startSession_bound ss ctx sess b w2, ?_⟩
  obtain ⟨r1, h1⟩ := trace_prefix ss fuel ctx
    (fun s => inTransactionWithRetryCtx ss (k + 1) (Context.WithValue ctx s) nested retry)
    0 w sess w1 t1 hs
  obtain ⟨r2, h2⟩ := trace_prefix_error ss k (Context.WithValue ctx sess) nested retry w1 sess
    w1 [] e (startSession_bound ss ctx sess true w1) hcb
  refine ⟨r2.map Op.inner ++ r1, ?_⟩
  unfold InTransaction
  rw [h1, h2]
  simp

/-- C9, witness: the nested callback records an event and fails. -/
theorem C9_nested_call_reuses_session_and_rolls_it_back_witness :
    (Context.WithValue .Background 0).Value = some 0 ∧
    (∀ b w2, startSession (okStore Nat) (Context.WithValue .Background 0) b w2 = (.ok 0, w2, [])) ∧
    ∃ rest, (InTransaction (okStore Nat) (0 + 1) .Background
        (fun c w2 => inTransactionWithRetryCtx (okStore Nat) (0 + 1) c
          (recordThen [1] (some (.other 9))) 0 w2) emptyWorld).trace =
      [Op.NewSession 0, Op.Begin 0 none] ++ [Op.callback 0, Op.inner (Op.callback 0)] ++
        ((recordThen [1] (some (.other 9)) 0
          ({ sessions := [{ events := [], dialect := 0 }], user := 0 } : World Nat)).trace.map
            Op.inner).map Op.inner ++
        [Op.inner (Op.Rollback 0 ((okStore Nat).Rollback 0 (recordThen [1] (some (.other 9)) 0
          ({ sessions := [{ events := [], dialect := 0 }], user := 0 } : World Nat)).world))] ++
        rest :=
  C9_nested_call_reuses_session_and_rolls_it_back (okStore Nat) 0 0 .Background
    (recordThen [1] (some (.other 9))) 0 emptyWorld 0
    { sessions := [{ events := [], dialect := 0 }], user := 0 }
    [Op.NewSession 0, Op.Begin 0 none] (.other 9) rfl rfl

/-- C10: when `Rollback` fails with `rollErr` after the callback returned the
error `e` (a lock-contention error or any other, whatever the retry counter),
the call returns the one error `Wrapf(e, ..., rollErr)` that wraps `e` and
carries `rollErr`; it does nothing after the failed `Rollback` but close the
session: the callback has run once, no `Commit` is issued and nothing is
published. -/
theorem C10_rollback_failure_returns_combined_error (ss : SqlStore σ) (fuel : Nat) (ctx : Context)
    (callback : dbTransactionFunc σ) (retry : Int) (w : World σ) (sess : Nat) (w1 : World σ)
    (t1 : List Op) (e rollErr : GoError)
    (hs : startSession ss ctx true w = (.ok sess, w1, t1))
    (hcb : (callback sess w1).out = .returned (some e))
    (hR : ss.Rollback sess (callback sess w1).world = some rollErr) :
    (inTransactionWithRetryCtx ss (fuel + 1) ctx callback retry w).out =
      .returned (some (.wrapf e rollErr)) ∧
    (inTransactionWithRetryCtx ss (fuel + 1) ctx callback retry w).trace =
      t1 ++ [Op.callback sess] ++ (callback sess w1).trace.map Op.inner ++
        [Op.Rollback sess (some rollErr), Op.Close sess] ∧
    callbackCount (inTransactionWithRetryCtx ss (fuel + 1) ctx callback retry w).trace = 1 ∧
    published (inTransactionWithRetryCtx ss (fuel + 1) ctx callback retry w).trace = [] ∧
    ∀ s res, Op.Commit s res ∉
      (inTransactionWithRetryCtx ss (fuel + 1) ctx callback retry w).trace := by
  have ht := startSession_trace ss ctx true w _ w1 t1 hs
  have hc : ∀ s res, Op.Commit s res ∉ t1 := by
    intro s res
    rcases startSession_cases ss ctx true w _ w1 t1 hs with ⟨_, _, h, _⟩ | ⟨_, _, h | ⟨r, h⟩, _⟩ <;>
      subst h <;> simp
  simp only [inTransactionWithRetryCtx, hs, hcb, hR]
  split <;>
    simp [Wrapf, callbackCount_append, callbackCount_map_inner, ht.1, ht.2, callbackCount,
      published_append, published_map_inner, published, hc]

/-- C10, witness: the callback fails with `ErrLocked` and `Rollback` fails. -/
theorem C10_rollback_failure_returns_combined_error_witness :
    (inTransactionWithRetryCtx rollbackFails (3 + 1) .Background
        (constCallback (some lockedErr)) 0 emptyWorld).out =
      .returned (some (.wrapf lockedErr (.other 2))) ∧
    (inTransactionWithRetryCtx rollbackFails (3 + 1) .Background
        (constCallback (some lockedErr)) 0 emptyWorld).trace =
      [Op.NewSession 0, Op.Begin 0 none] ++ [Op.callback 0] ++
        (constCallback (some lockedErr) 0
          ({ sessions := [{ events := [], dialect := 0 }], user := 0 } : World Nat)).trace.map
          Op.inner ++
        [Op.Rollback 0 (some (.other 2)), Op.Close 0] ∧
    callbackCount (inTransactionWithRetryCtx rollbackFails (3 + 1) .Background
        (constCallback (some lockedErr)) 0 emptyWorld).trace = 1 ∧
    published (inTransactionWithRetryCtx rollbackFails (3 + 1) .Background
        (constCallback (some lockedErr)) 0 emptyWorld).trace = [] ∧
    ∀ s res, Op.Commit s res ∉
      (inTransactionWithRetryCtx rollbackFails (3 + 1) .Background
        (constCallback (some lockedErr)) 0 emptyWorld).trace :=
  C10_rollback_failure_returns_combined_error rollbackFails 3 .Background
    (constCallback (some lockedErr)) 0 emptyWorld 0
    { sessions := [{ events := [], dialect := 0 }], user := 0 }
    [Op.NewSession 0, Op.Begin 0 none] lockedErr (.other 2) rfl rfl rfl

/-- C11: when the callback returns `nil` and `Commit` fails with `e`, the call
returns exactly `e`; after the failed `Commit` it only closes the session: no
`Rollback` is issued, the callback has run once, and no event is published. -/
theorem C11_commit_failure_returned_as_is (ss : SqlStore σ) (fuel : Nat) (ctx : Context)
    (callback : dbTransactionFunc σ) (retry : Int) (w : World σ) (sess : Nat) (w1 : World σ)
    (t1 : List Op) (e : GoError)
    (hs : startSession ss ctx true w = (.ok sess, w1, t1))
    (hcb : (callback sess w1).out = .returned none)
    (hC : ss.Commit sess (callback sess w1).world = some e) :
    (inTransactionWithRetryCtx ss (fuel + 1) ctx callback retry w).out = .returned (some e) ∧
    (inTransactionWithRetryCtx ss (fuel + 1) ctx callback retry w).trace =
      t1 ++ [Op.callback sess] ++ (callback sess w1).trace.map Op.inner ++
        [Op.Commit sess (some e), Op.Close sess] ∧
    rollbackCount (inTransactionWithRetryCtx ss (fuel + 1) ctx callback retry w).trace = 0 ∧
    callbackCount (inTransactionWithRetryCtx ss (fuel + 1) ctx callback retry w).trace = 1 ∧
    published (inTransactionWithRetryCtx ss (fuel + 1) ctx callback retry w).trace = [] := by
  have ht := startSession_trace ss ctx true w _ w1 t1 hs
  have hr := startSession_rollbackCount ss ctx true w _ w1 t1 hs
  simp only [inTransactionWithRetryCtx, hs, hcb, retryCondition_none, hC, Bool.false_eq_true,
    if_false]
  simp [rollbackCount_append, rollbackCount_map_inner, hr, rollbackCount, callbackCount_append,
    callbackCount_map_inner, ht.1, callbackCount, published_append, published_map_inner, ht.2,
    published]

/-- C11, witness: the callback records the event 1 and `Commit` fails. -/
theorem C11_commit_failure_returned_as_is_witness :
    (inTransactionWithRetryCtx commitFails (0 + 1) .Background (recordThen [1] none) 0
        emptyWorld).out = .returned (some (.other 5)) ∧
    (inTransactionWithRetryCtx commitFails (0 + 1) .Background (recordThen [1] none) 0
        emptyWorld).trace =
      [Op.NewSession 0, Op.Begin 0 none] ++ [Op.callback 0] ++
        (recordThen [1] none 0
          ({ sessions := [{ events := [], dialect := 0 }], user := 0 } : World Nat)).trace.map
          Op.inner ++
        [Op.Commit 0 (some (.other 5)), Op.Close 0] ∧
    rollbackCount (inTransactionWithRetryCtx commitFails (0 + 1) .Background
        (recordThen [1] none) 0 emptyWorld).trace = 0 ∧
    callbackCount (inTransactionWithRetryCtx commitFails (0 + 1) .Background
        (recordThen [1] none) 0 emptyWorld).trace = 1 ∧
    published (inTransactionWithRetryCtx commitFails (0 + 1) .Background
        (recordThen [1] none) 0 emptyWorld).trace = [] :=
  C11_commit_failure_returned_as_is commitFails 0 .Background (recordThen [1] none) 0 emptyWorld 0
    { sessions := [{ events := [], dialect := 0 }], user := 0 }
    [Op.NewSession 0, Op.Begin 0 none] (.other 5) rfl rfl rfl

/-- C12: once `Commit` has succeeded the call returns `nil` whatever
`bus.Publish` returns: `ss.Publish` is arbitrary here.  After the `Commit` the
trace holds one `Publish` for every event pending on the session, in the order
recorded, each with the result `bus.Publish` gave for it, so the events that
follow a failed `Publish` are published too; then the session is closed. -/
theorem C12_publish_failures_not_fatal (ss : SqlStore σ) (fuel : Nat) (ctx : Context)
    (callback : dbTransactionFunc σ) (retry : Int) (w : World σ) (sess : Nat) (w1 : World σ)
    (t1 : List Op)
    (hs : startSession ss ctx true w = (.ok sess, w1, t1))
    (hcb : (callback sess w1).out = .returned none)
    (hC : ss.Commit sess (callback sess w1).world = none) :
    (inTransactionWithRetryCtx ss (fuel + 1) ctx callback retry w).out = .returned none ∧
    (inTransactionWithRetryCtx ss (fuel + 1) ctx callback retry w).trace =
      t1 ++ [Op.callback sess] ++ (callback sess w1).trace.map Op.inner ++
        [Op.Commit sess none] ++
        ((callback sess w1).world.events sess).map
          (fun e => Op.Publish sess e (ss.Publish e (callback sess w1).world)) ++
        [Op.Close sess] ∧
    published (inTransactionWithRetryCtx ss (fuel + 1) ctx callback retry w).trace =
      (callback sess w1).world.events sess := by
  have ht := (startSession_trace ss ctx true w _ w1 t1 hs).2
  rw [run_commit ss fuel ctx callback retry w sess w1 t1 hs hcb hC]
  refine ⟨rfl, by simp [publishAll_eq_map], ?_⟩
  simp [published_append, published_map_inner, published_publishAll, ht, published]

/-- C12, witness: the events 1 and 2 are recorded; `Publish` fails for 1 and is
still called for 2. -/
theorem C12_publish_failures_not_fatal_witness :
    (inTransactionWithRetryCtx publishFails (0 + 1) .Background (recordThen [1, 2] none) 0
        emptyWorld).out = .returned none ∧
    (inTransactionWithRetryCtx publishFails (0 + 1) .Background (recordThen [1, 2] none) 0
        emptyWorld).trace =
      [Op.NewSession 0, Op.Begin 0 none] ++ [Op.callback 0] ++
        (recordThen [1, 2] none 0
          ({ sessions := [{ events := [], dialect := 0 }], user := 0 } : World Nat)).trace.map
          Op.inner ++
        [Op.Commit 0 none] ++
        ((recordThen [1, 2] none 0
          ({ sessions := [{ events := [], dialect := 0 }], user := 0 } : World Nat)).world.events
            0).map
          (fun e => Op.Publish 0 e (publishFails.Publish e (recordThen [1, 2] none 0
            ({ sessions := [{ events := [], dialect := 0 }], user := 0 } : World Nat)).world)) ++
        [Op.Close 0] ∧
    published (inTransactionWithRetryCtx publishFails (0 + 1) .Background
        (recordThen [1, 2] none) 0 emptyWorld).trace =
      (recordThen [1, 2] none 0
        ({ sessions := [{ events := [], dialect := 0 }], user := 0 } : World Nat)).world.events 0 :=
  C12_publish_failures_not_fatal publishFails 0 .Background (recordThen [1, 2] none) 0 emptyWorld 0
    { sessions := [{ events := [], dialect := 0 }], user := 0 }
    [Op.NewSession 0, Op.Begin 0 none] rfl rfl rfl

/-- C13: with a context that carries the bound session `sess`, `startSession`
answers `sess` itself and a `nil` error for both values of `beginTran`; it
issues no operation (no new session, no `Begin`) and leaves the heap, hence the
events of the bound session, unchanged. -/
theorem C13_startSession_returns_bound_session (ss : SqlStore σ) (ctx : Context) (sess : Nat)
    (beginTran : Bool) (w : World σ)
    (hctx : ctx.Value = some sess) :
    startSession ss ctx beginTran w = (.ok sess, w, []) ∧
    (startSession ss ctx beginTran w).2.1.sessions = w.sessions ∧
    (startSession ss ctx beginTran w).2.1.events sess = w.events sess := by
  have h : startSession ss ctx beginTran w = (.ok sess, w, []) := by
    simp [startSession, hctx]
  rw [h]
  exact ⟨rfl, rfl, rfl⟩

/-- C13, witness: on a store whose `Begin` would fail, with `beginTran` true. -/
theorem C13_startSession_returns_bound_session_witness :
    startSession beginFails (.WithValue .Background 0) true pendingWorld =
      (.ok 0, pendingWorld, []) ∧
    (startSession beginFails (.WithValue .Background 0) true pendingWorld).2.1.sessions =
      pendingWorld.sessions ∧
    (startSession beginFails (.WithValue .Background 0) true pendingWorld).2.1.events 0 =
      pendingWorld.events 0 :=
  C13_startSession_returns_bound_session beginFails (.WithValue .Background 0) 0 true pendingWorld rfl

/-- C14: with a context that carries no bound session, `startSession` creates a
new session at a new pointer, with no pending event and the dialect of the
store.  With `beginTran` false no `Begin` is issued and the session is
returned; with `beginTran` true `Begin` is issued on it: when it fails with
`err` the result is the error `err` itself and no session, and otherwise the new
session is returned with a `nil` error. -/
theorem C14_startSession_creates_session (ss : SqlStore σ) (ctx : Context) (w : World σ)
    (hctx : ctx.Value = none) :
    startSession ss ctx false w =
      (.ok w.sessions.length,
       { w with sessions := w.sessions ++ [{ events := [], dialect := ss.Dialect }] },
       [Op.NewSession w.sessions.length]) ∧
    (∀ err, ss.Begin w.sessions.length
        { w with sessions := w.sessions ++ [{ events := [], dialect := ss.Dialect }] } = some err →
      startSession ss ctx true w =
        (.error err,
         { w with sessions := w.sessions ++ [{ events := [], dialect := ss.Dialect }] },
         [Op.NewSession w.sessions.length, Op.Begin w.sessions.length (some err)])) ∧
    (ss.Begin w.sessions.length
        { w with sessions := w.sessions ++ [{ events := [], dialect := ss.Dialect }] } = none →
      startSession ss ctx true w =
        (.ok w.sessions.length,
         { w with sessions := w.sessions ++ [{ events := [], dialect := ss.Dialect }] },
         [Op.NewSession w.sessions.length, Op.Begin w.sessions.length none])) ∧
    ∀ b, (startSession ss ctx b w).2.1.sessions.get? w.sessions.length =
      some { events := [], dialect := ss.Dialect } := by
  refine ⟨by simp [startSession, hctx], ?_, ?_, ?_⟩
  · intro err hB
    simp [startSession, hctx, hB]
  · intro hB
    simp [startSession, hctx, hB]
  · intro b
    cases b
    · simp [startSession, hctx]
    · cases hB : ss.Begin w.sessions.length
          { w with sessions := w.sessions ++ [{ events := [], dialect := ss.Dialect }] } <;>
        simp [startSession, hctx, hB]

/-- C14, witness: a store of dialect 3 whose `Begin` fails with `ErrBusy`. -/
theorem C14_startSession_creates_session_witness :
    startSession beginFails .Background true emptyWorld =
      (.error busyErr, { sessions := [{ events := [], dialect := 3 }], user := 0 },
       [Op.NewSession 0, Op.Begin 0 (some busyErr)]) ∧
    startSession beginFails .Background false emptyWorld =
      (.ok 0, { sessions := [{ events := [], dialect := 3 }], user := 0 },
       [Op.NewSession 0]) :=
  have h := C14_startSession_creates_session beginFails .Background emptyWorld rfl
  ⟨h.2.1 busyErr rfl, h.1⟩

/-- C15: when `Begin` fails with `err` on the session that `startSession`
creates, the call returns `err` at once, for every value of the retry counter
and every kind of error (`err` is arbitrary, a lock-contention error included):
the callback is not invoked, no retry is made, and no `Rollback`, `Commit` or
`Publish` is issued. -/
theorem C15_begin_failure_returned_at_once (ss : SqlStore σ) (fuel : Nat) (ctx : Context)
    (callback : dbTransactionFunc σ) (retry : Int) (w : World σ) (err : GoError)
    (hctx : ctx.Value = none)
    (hB : ss.Begin w.sessions.length
      { w with sessions := w.sessions ++ [{ events := [], dialect := ss.Dialect }] } = some err) :
    inTransactionWithRetryCtx ss (fuel + 1) ctx callback retry w =
      { out := .returned (some err),
        world := { w with sessions := w.sessions ++ [{ events := [], dialect := ss.Dialect }] },
        trace := [Op.NewSession w.sessions.length, Op.Begin w.sessions.length (some err)] } ∧
    callbackCount (inTransactionWithRetryCtx ss (fuel + 1) ctx callback retry w).trace = 0 ∧
    rollbackCount (inTransactionWithRetryCtx ss (fuel + 1) ctx callback retry w).trace = 0 ∧
    commitCount (inTransactionWithRetryCtx ss (fuel + 1) ctx callback retry w).trace = 0 ∧
    published (inTransactionWithRetryCtx ss (fuel + 1) ctx callback retry w).trace = [] := by
  have hs : startSession ss ctx true w =
      (.error err,
       { w with sessions := w.sessions ++ [{ events := [], dialect := ss.Dialect }] },
       [Op.NewSession w.sessions.length, Op.Begin w.sessions.length (some err)]) := by
    simp [startSession, hctx, hB]
  simp only [inTransactionWithRetryCtx, hs]
  simp [callbackCount, rollbackCount, commitCount, published]

/-- C15, witness: `Begin` fails with `ErrBusy`; no retry is made. -/
theorem C15_begin_failure_returned_at_once_witness :
    inTransactionWithRetryCtx beginFails (4 + 1) .Background (recordThen [1] none) 0 emptyWorld =
      { out := .returned (some busyErr),
        world := { emptyWorld with
          sessions := emptyWorld.sessions ++ [{ events := [], dialect := beginFails.Dialect }] },
        trace := [Op.NewSession emptyWorld.sessions.length,
                  Op.Begin emptyWorld.sessions.length (some busyErr)] } ∧
    callbackCount (inTransactionWithRetryCtx beginFails (4 + 1) .Background
        (recordThen [1] none) 0 emptyWorld).trace = 0 ∧
    rollbackCount (inTransactionWithRetryCtx beginFails (4 + 1) .Background
        (recordThen [1] none) 0 emptyWorld).trace = 0 ∧
    commitCount (inTransactionWithRetryCtx beginFails (4 + 1) .Background
        (recordThen [1] none) 0 emptyWorld).trace = 0 ∧
    published (inTransactionWithRetryCtx beginFails (4 + 1) .Background
        (recordThen [1] none) 0 emptyWorld).trace = [] :=
  C15_begin_failure_returned_at_once beginFails 4 .Background (recordThen [1] none) 0 emptyWorld busyErr rfl rfl

/-- C16: `WithDbSession` always obtains a session from `startSession(ctx, false)`,
the bound one or a new one, without `Begin`.  When the callback returns `err`
(`nil` or an error) the call returns `err` itself; the callback has run exactly
once, on that session; no `Rollback` and no `Commit` is issued, nothing is
published, and the last operation is `Close` on the session. -/
theorem C16_WithDbSession_runs_callback_and_closes (ss : SqlStore σ) (ctx : Context)
    (callback : dbTransactionFunc σ)
    (w : World σ) :
    ∃ sess w1 t1, startSession ss ctx false w = (.ok sess, w1, t1) ∧
      (t1 = [] ∨ t1 = [Op.NewSession sess]) ∧
      ∀ err, (callback sess w1).out = .returned err →
        WithDbSession ss ctx callback w =
          { out := .returned err, world := (callback sess w1).world,
            trace := t1 ++ [Op.callback sess] ++ (callback sess w1).trace.map Op.inner ++
              [Op.Close sess] } ∧
        callbackCount (WithDbSession ss ctx callback w).trace = 1 ∧
        rollbackCount (WithDbSession ss ctx callback w).trace = 0 ∧
        commitCount (WithDbSession ss ctx callback w).trace = 0 ∧
        published (WithDbSession ss ctx callback w).trace = [] := by
  have key : ∀ sess w1 t1, startSession ss ctx false w = (.ok sess, w1, t1) →
      (t1 = [] ∨ t1 = [Op.NewSession sess]) →
      ∀ err, (callback sess w1).out = .returned err →
        WithDbSession ss ctx callback w =
          { out := .returned err, world := (callback sess w1).world,
            trace := t1 ++ [Op.callback sess] ++ (callback sess w1).trace.map Op.inner ++
              [Op.Close sess] } ∧
        callbackCount (WithDbSession ss ctx callback w).trace = 1 ∧
        rollbackCount (WithDbSession ss ctx callback w).trace = 0 ∧
        commitCount (WithDbSession ss ctx callback w).trace = 0 ∧
        published (WithDbSession ss ctx callback w).trace = [] := by
    intro sess w1 t1 hs ht err hc
    have heq : WithDbSession ss ctx callback w =
        { out := .returned err, world := (callback sess w1).world,
          trace := t1 ++ [Op.callback sess] ++ (callback sess w1).trace.map Op.inner ++
            [Op.Close sess] } := by
      simp only [WithDbSession, hs, hc]
    rw [heq]
    refine ⟨rfl, ?_, ?_, ?_, ?_⟩ <;> rcases ht with ht | ht <;> subst ht <;>
      simp [callbackCount_append, callbackCount_map_inner, callbackCount,
        rollbackCount_append, rollbackCount_map_inner, rollbackCount,
        commitCount_append, commitCount_map_inner, commitCount,
        published_append, published_map_inner, published]
  cases hv : ctx.Value with
  | some s =>
    have hs : startSession ss ctx false w = (.ok s, w, []) := by simp [startSession, hv]
    exact ⟨s, w, [], hs, Or.inl rfl, key s w [] hs (Or.inl rfl)⟩
  | none =>
    have hs : startSession ss ctx false w =
        (.ok w.sessions.length,
         { w with sessions := w.sessions ++ [{ events := [], dialect := ss.Dialect }] },
         [Op.NewSession w.sessions.length]) := by
      simp [startSession, hv]
    exact ⟨_, _, _, hs, Or.inr rfl, key _ _ _ hs (Or.inr rfl)⟩

/-- C17: when an attempt on the session `sess` ends with an error that is
retried and `Rollback` succeeds, the next attempt runs on a session created for
it: its pointer is new, hence distinct from `sess`, also when `sess` was bound to
the caller's context; its list of pending events is empty; and when `Begin`
succeeds the callback is invoked on that session.  When the call then returns
`nil`, what it published is the pending list of a session other than `sess` that
was empty when the successful attempt started: the events recorded during that
attempt and no other.  `hptr` and `hmono` say that the heap is a Go heap: the
pointer bound to the context points to a session, and a callback does not free
sessions. -/
theorem C17_retry_runs_on_new_session (ss : SqlStore σ) (fuel : Nat) (ctx : Context)
    (callback : dbTransactionFunc σ) (retry : Int) (w : World σ) (sess : Nat) (w1 : World σ)
    (t1 : List Op) (err : Err)
    (hptr : ∀ s, ctx.Value = some s → s < w.sessions.length)
    (hmono : ∀ s w, w.sessions.length ≤ (callback s w).world.sessions.length)
    (hs : startSession ss ctx true w = (.ok sess, w1, t1))
    (hcb : (callback sess w1).out = .returned err)
    (hretry : retryCondition err retry = true)
    (hR : ss.Rollback sess (callback sess w1).world = none) :
    sess < (callback sess w1).world.sessions.length ∧
    World.events
      { (callback sess w1).world with
        sessions := (callback sess w1).world.sessions ++ [{ events := [], dialect := ss.Dialect }] }
      (callback sess w1).world.sessions.length = [] ∧
    (ss.Begin (callback sess w1).world.sessions.length
        { (callback sess w1).world with
          sessions := (callback sess w1).world.sessions ++
            [{ events := [], dialect := ss.Dialect }] } = none →
      ∃ rest, (inTransactionWithRetryCtx ss (fuel + 2) ctx callback retry w).trace =
        t1 ++ [Op.callback sess] ++ (callback sess w1).trace.map Op.inner ++
          [Op.Rollback sess none, Op.Sleep,
           Op.NewSession (callback sess w1).world.sessions.length,
           Op.Begin (callback sess w1).world.sessions.length none,
           Op.callback (callback sess w1).world.sessions.length] ++
          (callback (callback sess w1).world.sessions.length
            { (callback sess w1).world with
              sessions := (callback sess w1).world.sessions ++
                [{ events := [], dialect := ss.Dialect }] }).trace.map Op.inner ++ rest) ∧
    ((inTransactionWithRetryCtx ss (fuel + 1) ctx callback retry w).out = .returned none →
      ∃ s w2, sess < s ∧ w2.events s = [] ∧ (callback s w2).out = .returned none ∧
        published (inTransactionWithRetryCtx ss (fuel + 1) ctx callback retry w).trace =
          (callback s w2).world.events s) := by
  have ht := (startSession_trace ss ctx true w _ w1 t1 hs).2
  have hlt : sess < (callback sess w1).world.sessions.length := by
    have h2 := (startSession_heap ss ctx true w sess w1 t1 hs hptr).2
    have h3 := hmono sess w1
    omega
  refine ⟨hlt, by simp [World.events], ?_, ?_⟩
  · intro hB
    have hs2 : startSession ss .Background true (callback sess w1).world =
        (.ok (callback sess w1).world.sessions.length,
         { (callback sess w1).world with
            sessions := (callback sess w1).world.sessions ++
              [{ events := [], dialect := ss.Dialect }] },
         [Op.NewSession (callback sess w1).world.sessions.length,
          Op.Begin (callback sess w1).world.sessions.length none]) := by
      simp [startSession, Context.Value, hB]
    obtain ⟨rest, hrest⟩ := trace_prefix ss fuel .Background callback (addInt retry 1)
      (callback sess w1).world _ _ _ hs2
    cases hn : (inTransactionWithRetryCtx ss (fuel + 1) .Background callback (addInt retry 1)
        (callback sess w1).world).out with
    | diverged =>
      refine ⟨rest, ?_⟩
      rw [inTransactionWithRetryCtx]
      simp only [hs, hcb, hretry, hR, hn, if_true, hrest]
      simp
    | returned e2 =>
      refine ⟨rest ++ [Op.Close sess], ?_⟩
      rw [inTransactionWithRetryCtx]
      simp only [hs, hcb, hretry, hR, hn, if_true, hrest]
      simp
  · intro hret
    cases hn : (inTransactionWithRetryCtx ss fuel .Background callback (addInt retry 1)
        (callback sess w1).world).out with
    | diverged => simp [inTransactionWithRetryCtx, hs, hcb, hretry, hR, hn] at hret
    | returned e2 =>
      have he2 : e2 = none := by
        simpa [inTransactionWithRetryCtx, hs, hcb, hretry, hR, hn] using hret
      subst he2
      obtain ⟨s, w2, h1, h2, h3, h4⟩ := success_background ss callback hmono fuel _ _ hn
      refine ⟨s, w2, by omega, h2, h3, ?_⟩
      simp only [inTransactionWithRetryCtx, hs, hcb, hretry, hR, hn, if_true]
      simp [published_append, published_map_inner, ht, published, h4]

/-- C17, witness: the first attempt runs on the context-bound session 0, which
holds the pending event 7, records the event 10 and fails with `ErrLocked`; the
retry runs on the new session 1, records the event 11 and succeeds: only 11 is
published. -/
theorem C17_retry_runs_on_new_session_witness :
    0 < (recordFailFirst 1 lockedErr 0 pendingWorld).world.sessions.length ∧
    (∃ rest, (inTransactionWithRetryCtx (okStore Nat) (1 + 2) (.WithValue .Background 0)
        (recordFailFirst 1 lockedErr) 0 pendingWorld).trace =
      [] ++ [Op.callback 0] ++ (recordFailFirst 1 lockedErr 0 pendingWorld).trace.map Op.inner ++
        [Op.Rollback 0 none, Op.Sleep,
         Op.NewSession (recordFailFirst 1 lockedErr 0 pendingWorld).world.sessions.length,
         Op.Begin (recordFailFirst 1 lockedErr 0 pendingWorld).world.sessions.length none,
         Op.callback (recordFailFirst 1 lockedErr 0 pendingWorld).world.sessions.length] ++
        (recordFailFirst 1 lockedErr
          (recordFailFirst 1 lockedErr 0 pendingWorld).world.sessions.length
          { (recordFailFirst 1 lockedErr 0 pendingWorld).world with
            sessions := (recordFailFirst 1 lockedErr 0 pendingWorld).world.sessions ++
              [{ events := [], dialect := (okStore Nat).Dialect }] }).trace.map Op.inner ++
        rest) ∧
    (∃ s w2, 0 < s ∧ w2.events s = [] ∧
      (recordFailFirst 1 lockedErr s w2).out = .returned none ∧
      published (inTransactionWithRetryCtx (okStore Nat) (1 + 1) (.WithValue .Background 0)
          (recordFailFirst 1 lockedErr) 0 pendingWorld).trace =
        (recordFailFirst 1 lockedErr s w2).world.events s) ∧
    published (inTransactionWithRetryCtx (okStore Nat) (1 + 1) (.WithValue .Background 0)
        (recordFailFirst 1 lockedErr) 0 pendingWorld).trace = [11] :=
  have h := C17_retry_runs_on_new_session (okStore Nat) 1 (.WithValue .Background 0) (recordFailFirst 1 lockedErr) 0
    pendingWorld 0 pendingWorld [] (some lockedErr)
    (fun s hs => by
      simp only [Context.Value, Option.some.injEq] at hs
      subst hs
      decide)
    (fun s w => by simp [recordFailFirst, publishAfterCommit, List.length_modify])
    rfl rfl (by decide) rfl
  ⟨h.1, h.2.2.1 rfl, h.2.2.2 (by decide), by decide⟩

/-- C18: whenever a call that obtained the session `sess` returns, the last
operation it issued is `Close` on `sess`.  This covers every exit path:
successful commit, failed commit, business error, failed rollback, and a
lock-contention error followed by retries. -/
theorem C18_session_closed_before_return (ss : SqlStore σ) (fuel : Nat) (ctx : Context)
    (callback : dbTransactionFunc σ) (retry : Int) (w : World σ) (sess : Nat) (w1 : World σ)
    (t1 : List Op) (e : Err)
    (hs : startSession ss ctx true w = (.ok sess, w1, t1))
    (hret : (inTransactionWithRetryCtx ss fuel ctx callback retry w).out = .returned e) :
    ∃ pre, (inTransactionWithRetryCtx ss fuel ctx callback retry w).trace =
      pre ++ [Op.Close sess] := by
  cases fuel with
  | zero => simp [inTransactionWithRetryCtx] at hret
  | succ n =>
    cases hc : (callback sess w1).out with
    | diverged => simp [inTransactionWithRetryCtx, hs, hc] at hret
    | returned err =>
      cases hr : retryCondition err retry with
      | true =>
        cases hR : ss.Rollback sess (callback sess w1).world with
        | some rollErr =>
          exact ⟨t1 ++ [Op.callback sess] ++ (callback sess w1).trace.map Op.inner ++
            [Op.Rollback sess (some rollErr)],
            by simp [inTransactionWithRetryCtx, hs, hc, hr, hR]⟩
        | none =>
          cases hn : (inTransactionWithRetryCtx ss n .Background callback (addInt retry 1)
              (callback sess w1).world).out with
          | diverged => simp [inTransactionWithRetryCtx, hs, hc, hr, hR, hn] at hret
          | returned e2 =>
            exact ⟨t1 ++ [Op.callback sess] ++ (callback sess w1).trace.map Op.inner ++
              [Op.Rollback sess none, Op.Sleep] ++
              (inTransactionWithRetryCtx ss n .Background callback (addInt retry 1)
                (callback sess w1).world).trace,
              by simp [inTransactionWithRetryCtx, hs, hc, hr, hR, hn]⟩
      | false =>
        cases err with
        | some e1 =>
          cases hR : ss.Rollback sess (callback sess w1).world with
          | some rollErr =>
            exact ⟨t1 ++ [Op.callback sess] ++ (callback sess w1).trace.map Op.inner ++
              [Op.Rollback sess (some rollErr)],
              by simp [inTransactionWithRetryCtx, hs, hc, hr, hR]⟩
          | none =>
            exact ⟨t1 ++ [Op.callback sess] ++ (callback sess w1).trace.map Op.inner ++
              [Op.Rollback sess none],
              by simp [inTransactionWithRetryCtx, hs, hc, hr, hR]⟩
        | none =>
          cases hC : ss.Commit sess (callback sess w1).world with
          | some e1 =>
            exact ⟨t1 ++ [Op.callback sess] ++ (callback sess w1).trace.map Op.inner ++
              [Op.Commit sess (some e1)],
              by simp [inTransactionWithRetryCtx, hs, hc, hr, hC]⟩
          | none =>
            exact ⟨t1 ++ [Op.callback sess] ++ (callback sess w1).trace.map Op.inner ++
              [Op.Commit sess none] ++
              publishAll ss sess (callback sess w1).world ((callback sess w1).world.events sess),
              by simp [inTransactionWithRetryCtx, hs, hc, hr, hC]⟩

/-- C18, witness: two failures with `ErrLocked`, then success; the session 0 of
the first attempt is closed last. -/
theorem C18_session_closed_before_return_witness :
    ∃ pre, (inTransactionWithRetryCtx (okStore Nat) 3 .Background (failFirst 2 lockedErr) 0
      emptyWorld).trace = pre ++ [Op.Close 0] :=
  C18_session_closed_before_return (okStore Nat) 3 .Background (failFirst 2 lockedErr) 0 emptyWorld 0
    { sessions := [{ events := [], dialect := 0 }], user := 0 }
    [Op.NewSession 0, Op.Begin 0 none] none rfl (by decide)

/-- C19: in the trace of `inTransactionWithRetryCtx`, every invocation of the
callback after the first is immediately preceded by: the successful `Rollback`
of the session `s` of the invocation before it, the pause, and the creation and
the successful `Begin` of its own session `s2`.  Between the invocation on `s`
and that `Rollback` stands only what the callback did itself. -/
theorem C19_retry_follows_successful_rollback (ss : SqlStore σ)
    (callback : dbTransactionFunc σ) (fuel : Nat) (ctx : Context) (retry : Int) (w : World σ)
    (pre post : List Op) (s2 : Nat)
    (h : (inTransactionWithRetryCtx ss fuel ctx callback retry w).trace =
      pre ++ Op.callback s2 :: post)
    (hpos : 0 < callbackCount pre) :
    ∃ (a : List Op) (s : Nat) (b : List Op), pre = a ++ Op.callback s ::
        (b.map Op.inner ++ [Op.Rollback s none, Op.Sleep, Op.NewSession s2, Op.Begin s2 none]) :=
  retry_after_rollback ss callback fuel ctx retry w pre post s2 h hpos

/-- C19, witness: one failure with `ErrLocked`, then success; the second
invocation follows `Rollback 0`, the pause, and the creation and `Begin` of
session 1. -/
theorem C19_retry_follows_successful_rollback_witness :
    ∃ (a : List Op) (s : Nat) (b : List Op),
      [Op.NewSession 0, Op.Begin 0 none, Op.callback 0, Op.Rollback 0 none, Op.Sleep,
        Op.NewSession 1, Op.Begin 1 none] =
      a ++ Op.callback s ::
        (b.map Op.inner ++ [Op.Rollback s none, Op.Sleep, Op.NewSession 1, Op.Begin 1 none]) :=
  C19_retry_follows_successful_rollback (okStore Nat) (failFirst 1 lockedErr) 2 .Background 0
    emptyWorld
    [Op.NewSession 0, Op.Begin 0 none, Op.callback 0, Op.Rollback 0 none, Op.Sleep,
      Op.NewSession 1, Op.Begin 1 none]
    [Op.Commit 1 none, Op.Close 1, Op.Close 0] 1 (by decide) (by decide)

/-- C20: `inTransaction(callback)` is
`inTransactionWithRetryCtx(context.Background(), callback, 0)`, and
`WithTransactionalDbSession(ctx, callback)` and `inTransactionCtx(ctx, callback)`
are both `inTransactionWithRetryCtx(ctx, callback, 0)`: the same returned error,
the same world and the same operations. -/
theorem C20_entry_points_are_executor_at_retry_zero (ss : SqlStore σ) (fuel : Nat) (ctx : Context)
    (callback : dbTransactionFunc σ) (w : World σ) :
    inTransaction ss fuel callback w =
      inTransactionWithRetryCtx ss fuel Context.Background callback 0 w ∧
    WithTransactionalDbSession ss fuel ctx callback w =
      inTransactionWithRetryCtx ss fuel ctx callback 0 w ∧
    inTransactionCtx ss fuel ctx callback w =
      inTransactionWithRetryCtx ss fuel ctx callback 0 w :=
  ⟨rfl, rfl, rfl⟩

/-- C21 (the code departs from the claim): when `sess.Exec` fails and answers
no result (`result` is `nil`, `err` is `e`), the callbacks of
`DeleteDataSourceById` and of `DeleteDataSourceByName` do not return `e`: they
call `result.RowsAffected()` first, a nil dereference, and panic. -/
theorem C21_delete_callback_panics_without_result (e : GoError) (cmd : DeleteDataSourceByIdCommand)
    (cmd2 : DeleteDataSourceByNameCommand) :
    DeleteDataSourceByIdCallback (fun _ _ => (none, some e)) cmd = .panic ∧
    DeleteDataSourceByNameCallback (fun _ _ => (none, some e)) cmd2 = .panic :=
  ⟨rfl, rfl⟩

/-- C22: in a call that returns, the sessions of the attempts are closed in the
reverse of the order in which the attempts used them, each once: the pointers
of the attempts increase, hence differ, and the list of the closed sessions is
the reverse of the list of the attempted ones.  No session is closed before the
last attempt: at every invocation of the callback no `Close` has been issued
yet, so that with `n` retries `n + 1` sessions are open during the last attempt.
`hptr` and `hmono` say that the heap is a Go heap: the pointer bound to the
context points to a session, and a callback does not free sessions. -/
theorem C22_sessions_closed_in_reverse_after_last_attempt (ss : SqlStore σ)
    (callback : dbTransactionFunc σ) (fuel : Nat)
    (ctx : Context) (retry : Int) (w : World σ) (e : Err)
    (hptr : ∀ s, ctx.Value = some s → s < w.sessions.length)
    (hmono : ∀ s w, w.sessions.length ≤ (callback s w).world.sessions.length)
    (hret : (inTransactionWithRetryCtx ss fuel ctx callback retry w).out = .returned e) :
    closed (inTransactionWithRetryCtx ss fuel ctx callback retry w).trace =
      (attempted (inTransactionWithRetryCtx ss fuel ctx callback retry w).trace).reverse ∧
    (attempted (inTransactionWithRetryCtx ss fuel ctx callback retry w).trace).Pairwise
      (· < ·) ∧
    (attempted (inTransactionWithRetryCtx ss fuel ctx callback retry w).trace).length =
      callbackCount (inTransactionWithRetryCtx ss fuel ctx callback retry w).trace ∧
    ∀ pre post s, (inTransactionWithRetryCtx ss fuel ctx callback retry w).trace =
        pre ++ Op.callback s :: post →
      closed pre = [] := by
  refine ⟨closed_reverse ss callback fuel ctx retry w e hret, ?_, attempted_length _,
    no_close_before_callback ss callback fuel ctx retry w⟩
  cases fuel with
  | zero => simp [inTransactionWithRetryCtx, attempted]
  | succ n =>
    rcases hst : startSession ss ctx true w with ⟨res, w1, t1⟩
    have ht := (startSession_trace ss _ true w _ w1 t1 hst).1
    cases res with
    | error err =>
      simp only [inTransactionWithRetryCtx, hst]
      rw [attempted_of_callbackCount _ ht]
      simp
    | ok sess =>
      have hlt : sess < (callback sess w1).world.sessions.length := by
        have h2 := (startSession_heap ss ctx true w sess w1 t1 hst hptr).2
        have h3 := hmono sess w1
        omega
      obtain ⟨tail, hshape, htail⟩ := trace_shape ss n ctx callback retry w sess w1 t1 hst
      rw [hshape]
      rcases htail with h0 | ⟨C, hC, hC0⟩
      · simp [attempted_append, attempted_map_inner, attempted_of_callbackCount _ ht,
          attempted_of_callbackCount _ h0, attempted]
      · obtain ⟨hb, hp⟩ := attempted_increasing ss callback hmono n (addInt retry 1)
          (callback sess w1).world
        rw [hC]
        simp only [attempted_append, attempted_map_inner, attempted_of_callbackCount _ ht,
          attempted_of_callbackCount _ hC0, attempted, List.nil_append, List.append_nil]
        refine List.pairwise_cons.mpr ⟨?_, hp⟩
        intro s hs
        have := hb s hs
        omega

/-- C22, witness: two failures with `ErrLocked`, then success: the sessions
0, 1 and 2 are closed in the order 2, 1, 0. -/
theorem C22_sessions_closed_in_reverse_after_last_attempt_witness :
    closed (inTransactionWithRetryCtx (okStore Nat) 3 .Background (failFirst 2 lockedErr) 0
        emptyWorld).trace =
      (attempted (inTransactionWithRetryCtx (okStore Nat) 3 .Background (failFirst 2 lockedErr)
        0 emptyWorld).trace).reverse ∧
    (attempted (inTransactionWithRetryCtx (okStore Nat) 3 .Background (failFirst 2 lockedErr) 0
        emptyWorld).trace).Pairwise (· < ·) ∧
    (attempted (inTransactionWithRetryCtx (okStore Nat) 3 .Background (failFirst 2 lockedErr) 0
        emptyWorld).trace).length =
      callbackCount (inTransactionWithRetryCtx (okStore Nat) 3 .Background
        (failFirst 2 lockedErr) 0 emptyWorld).trace ∧
    closed (inTransactionWithRetryCtx (okStore Nat) 3 .Background (failFirst 2 lockedErr) 0
        emptyWorld).trace = [2, 1, 0] :=
  have h := C22_sessions_closed_in_reverse_after_last_attempt (okStore Nat)
    (failFirst 2 lockedErr) 3 .Background 0 emptyWorld none
    (fun _ hs => by simp [Context.Value] at hs) (fun _ _ => le_refl _) (by decide)
  ⟨h.1, h.2.1, h.2.2.1, by decide⟩

/-- C23, counterexample: no key exists, `timeNow()` is 1600000000 s and
`SecondsToLive` is 9223372037.  The product `time.Second * 9223372037` does not
fit 64 bits and wraps to a negative duration: the inserted key has
`Expires = -7623372037`, not the Unix time of `timeNow()` plus `SecondsToLive`
seconds, which is 10823372037. -/
theorem C23_expiry_wraps_counterexample :
    (AddApiKeyCallback getNone insertOk someNow (addKeyCmd 9223372037)).inserted.map
        ApiKey.Expires = [some (-7623372037)] ∧
    (AddApiKeyCallback getNone insertOk someNow (addKeyCmd 9223372037)).inserted.map
        ApiKey.Expires ≠ [some (someNow.Unix + 9223372037)] := by
  decide

/-- C23 (amended): when `sess.Get` finds a key with the same org and name, the
callback of `AddApiKey` returns `ErrDuplicateApiKey` whatever `SecondsToLive` is,
and inserts nothing.  When it finds none: for `SecondsToLive < 0` the callback
returns `ErrInvalidApiKeyExpiration`, inserts nothing and leaves the command,
hence `cmd.Result`, as it was; for `SecondsToLive = 0` the key passed to
`sess.Insert` has `Expires = nil`; for `SecondsToLive > 0` it has `Expires` equal
to the Unix time of `timeNow()` plus the 64-bit duration
`time.Second * SecondsToLive`, which is `timeNow().Unix() + SecondsToLive` as long
as `SecondsToLive` is at most 9223372036, so that the product does not wrap.  In
both cases `Created` and `Updated` are that `timeNow()`. -/
theorem C23_api_key_expiry (Get : Int → String → Bool × Err) (Insert : ApiKey → ApiKey × Err)
    (timeNow : Time) (cmd : AddApiKeyCommand) :
    (Get cmd.OrgId cmd.Name = (true, none) →
      AddApiKeyCallback Get Insert timeNow cmd =
        { err := some ErrDuplicateApiKey, cmd := cmd, inserted := [] }) ∧
    (Get cmd.OrgId cmd.Name = (false, none) →
      (cmd.SecondsToLive < 0 →
        AddApiKeyCallback Get Insert timeNow cmd =
          { err := some ErrInvalidApiKeyExpiration, cmd := cmd, inserted := [] }) ∧
      (cmd.SecondsToLive = 0 →
        (AddApiKeyCallback Get Insert timeNow cmd).inserted =
          [{ Id := 0, OrgId := cmd.OrgId, Name := cmd.Name, Role := cmd.Role, Key := cmd.Key,
             Created := timeNow, Updated := timeNow, Expires := none }]) ∧
      (0 < cmd.SecondsToLive →
        (AddApiKeyCallback Get Insert timeNow cmd).inserted =
          [{ Id := 0, OrgId := cmd.OrgId, Name := cmd.Name, Role := cmd.Role, Key := cmd.Key,
             Created := timeNow, Updated := timeNow,
             Expires := some (timeNow.Add (mulInt Second cmd.SecondsToLive)).Unix }] ∧
        (cmd.SecondsToLive ≤ 9223372036 → 0 ≤ timeNow.nsec → timeNow.nsec < 1000000000 →
          (timeNow.Add (mulInt Second cmd.SecondsToLive)).Unix =
            timeNow.Unix + cmd.SecondsToLive))) := by
  refine ⟨?_, ?_⟩
  · intro hg
    simp [AddApiKeyCallback, hg]
  · intro hg
    refine ⟨?_, ?_, ?_⟩
    · intro h
      have h2 : ¬ cmd.SecondsToLive > 0 := by omega
      simp [AddApiKeyCallback, hg, h, h2]
    · intro h
      have h2 : ¬ cmd.SecondsToLive > 0 := by omega
      have h3 : ¬ cmd.SecondsToLive < 0 := by omega
      simp only [AddApiKeyCallback, hg, h2, h3, if_false]
      exact AddApiKeyInsert_inserted Insert cmd timeNow none
    · intro h
      refine ⟨?_, ?_⟩
      · have h2 : cmd.SecondsToLive > 0 := h
        simp only [AddApiKeyCallback, hg, h2, if_true]
        exact AddApiKeyInsert_inserted Insert cmd timeNow _
      · intro h1 h2 h3
        rw [mulInt_second _ h h1, add_seconds_unix _ _ h2 h3]

/-- C23, witness: a key that lives one hour expires at the Unix time of
`timeNow()` plus 3600. -/
theorem C23_api_key_expiry_witness :
    (AddApiKeyCallback getNone insertOk someNow (addKeyCmd 3600)).inserted =
      [{ Id := 0, OrgId := 1, Name := "k", Role := "Viewer", Key := "h",
         Created := someNow, Updated := someNow,
         Expires := some (someNow.Add (mulInt Second 3600)).Unix }] ∧
    (someNow.Add (mulInt Second 3600)).Unix = someNow.Unix + 3600 :=
  have h := (C23_api_key_expiry getNone insertOk someNow (addKeyCmd 3600)).2 rfl
  ⟨(h.2.2 (by decide)).1, (h.2.2 (by decide)).2 (by decide) (by decide) (by decide)⟩

end Sqlstore
